import Mathlib

/-!
# URI.parse of the Goby VM (`vm/uri.go`)

A shallow embedding of `initializeURIClass` and of the built-in class method
`parse` of `builtinURIClassMethods`, together with the two Go standard library
functions whose results decide what `parse` does with a port:
`(*url.URL).Port` and `strconv.ParseInt`.

Go strings are embedded as Lean strings and traversed character by character.
Every byte the embedded library functions compare against is ASCII, and a
non-ASCII character is encoded by bytes at or above 0x80 only, so the
byte-wise Go loops and the character-wise loops below take the same branches.
-/

namespace Goby

/-! ## Go maps -/

/-- A Go `map[string]V`: a list of entries with pairwise different keys.
The position of an entry carries no meaning for `get` and `set`. -/
abbrev GoMap (V : Type) := List (String × V)

/-- The lookup `m[k]`, with `none` for Go's "not present". -/
def GoMap.get {V : Type} : GoMap V → String → Option V
  | [], _ => none
  | (k', v) :: rest, k => if k' = k then some v else GoMap.get rest k

/-- The assignment `m[k] = v`: overwrites the entry of `k` or adds one. -/
def GoMap.set {V : Type} : GoMap V → String → V → GoMap V
  | [], k, v => [(k, v)]
  | (k', v') :: rest, k, v =>
    if k' = k then (k, v) :: rest else (k', v') :: GoMap.set rest k v

/-- The keys of a map. -/
def GoMap.keys {V : Type} (m : GoMap V) : List String := m.map Prod.fst

/-! ## Objects of the runtime -/

/-- The values `parse` stores: `NULL`, `initStringObject s`, `initIntegerObject n`. -/
inductive Object where
  | NULL
  | StringObject (Value : String)
  | IntegerObject (Value : Int)
  deriving DecidableEq, Repr

/-- A `*Pointer`: the address of its `Target` in the class heap of the VM. -/
structure Pointer where
  Target : Nat
  deriving DecidableEq, Repr

/-- The methods a class holds. -/
inductive Method where
  | builtIn (Name : String) (classMethod : Bool)
  | attrReader (attr : String)
  | attrWriter (attr : String)
  deriving DecidableEq, Repr

/-- The fields of `RClass` that `uri.go` reads or writes. Class references
(`*RClass`) are addresses in the class heap. -/
structure RClass where
  Name : String
  isModule : Bool
  superClass : Option Nat
  pseudoSuperClass : Option Nat
  constants : GoMap Pointer
  Methods : List Method
  deriving DecidableEq, Repr

/-- The part of the `VM` that `uri.go` touches: the global constants and the
classes they point to. -/
structure VM where
  constants : GoMap Pointer
  heap : List RClass
  deriving DecidableEq, Repr

/-- An `*RObject`: its class and its instance variables. -/
structure RObject where
  Class : Nat
  InstanceVariables : GoMap Object
  deriving DecidableEq, Repr

/-- How a call of a built-in method ends when it does not return an object. -/
inductive Failure where
  /-- An error raised through `t.returnError`, with its message. -/
  | raised (msg : String)
  /-- A Go run-time panic (nil dereference, index out of range, failed
  type assertion). -/
  | goPanic
  deriving DecidableEq, Repr

deriving instance DecidableEq for Except

/-! ## `strconv.ParseInt` -/

/-- The `Err` of a `*strconv.NumError`. -/
inductive NumErr where
  | ErrSyntax
  | ErrRange
  | baseError (base : Nat)
  | bitSizeError (bitSize : Nat)
  deriving DecidableEq, Repr

/-- A `*strconv.NumError`. -/
structure NumError where
  Func : String
  Num : String
  Err : NumErr
  deriving DecidableEq, Repr

/-- The byte-level `lower(c)` of strconv: `c | ('x' - 'X')`. -/
def lower (c : Nat) : Nat := c ||| 0x20

/-- The loop of `strconv.ParseUint` over the digits: `n` is the value read so
far, `us` records that an underscore was skipped. Arithmetic is that of
`uint64`. -/
def parseUintLoop (base : Nat) (base0 : Bool) (cutoff maxVal : Nat) :
    List Char → Nat → Bool → Except NumErr (Nat × Bool)
  | [], n, us => .ok (n, us)
  | c :: cs, n, us =>
    if c = '_' ∧ base0 = true then parseUintLoop base base0 cutoff maxVal cs n true
    else
      let d? : Option Nat :=
        if '0'.toNat ≤ c.toNat ∧ c.toNat ≤ '9'.toNat then some (c.toNat - '0'.toNat)
        else if 'a'.toNat ≤ lower c.toNat ∧ lower c.toNat ≤ 'z'.toNat then
          some (lower c.toNat - 'a'.toNat + 10)
        else none
      match d? with
      | none => .error .ErrSyntax
      | some d =>
        if d ≥ base then .error .ErrSyntax
        else if n ≥ cutoff then .error .ErrRange
        else
          let n' := (n * base) % 2 ^ 64
          let n1 := (n' + d) % 2 ^ 64
          if n1 < n' ∨ n1 > maxVal then .error .ErrRange
          else parseUintLoop base base0 cutoff maxVal cs n1 us

/-- The loop of `strconv.underscoreOK` over "the number proper"; `saw` is the
last kind of character seen (`'^'`, `'0'`, `'_'` or `'!'`). -/
def underscoreOKLoop (hex : Bool) : List Char → Char → Bool
  | [], saw => saw != '_'
  | c :: cs, saw =>
    if ('0'.toNat ≤ c.toNat ∧ c.toNat ≤ '9'.toNat) ∨
        (hex = true ∧ 'a'.toNat ≤ lower c.toNat ∧ lower c.toNat ≤ 'f'.toNat) then
      underscoreOKLoop hex cs '0'
    else if c = '_' then
      if saw != '0' then false else underscoreOKLoop hex cs '_'
    else if saw = '_' then false
    else underscoreOKLoop hex cs '!'

/-- `strconv.underscoreOK`: underscores only between digits or between a base
prefix and a digit. -/
def underscoreOK (s : List Char) : Bool :=
  let s := match s with
    | c :: cs => if c = '-' ∨ c = '+' then cs else s
    | [] => s
  match s with
  | c0 :: c1 :: rest =>
    if c0 = '0' ∧ (lower c1.toNat = 'b'.toNat ∨ lower c1.toNat = 'o'.toNat ∨
        lower c1.toNat = 'x'.toNat) then
      underscoreOKLoop (lower c1.toNat == 'x'.toNat) rest '0'
    else underscoreOKLoop false s '^'
  | _ => underscoreOKLoop false s '^'

/-- `strconv.ParseUint(s, base, bitSize)`; the error is the `Err` of the
`NumError` it returns. -/
def ParseUint (s : List Char) (base bitSize : Nat) : Except NumErr Nat :=
  match s with
  | [] => .error .ErrSyntax
  | c0 :: rest =>
    let base0 : Bool := base == 0
    let pre : Except NumErr (Nat × List Char) :=
      if 2 ≤ base ∧ base ≤ 36 then .ok (base, s)
      else if base = 0 then
        if c0 = '0' then
          match rest with
          | c1 :: rest2 =>
            if s.length ≥ 3 ∧ lower c1.toNat = 'b'.toNat then .ok (2, rest2)
            else if s.length ≥ 3 ∧ lower c1.toNat = 'o'.toNat then .ok (8, rest2)
            else if s.length ≥ 3 ∧ lower c1.toNat = 'x'.toNat then .ok (16, rest2)
            else .ok (8, rest)
          | [] => .ok (8, rest)
        else .ok (10, s)
      else .error (.baseError base)
    match pre with
    | .error e => .error e
    | .ok (b, digits) =>
      if bitSize > 64 then .error (.bitSizeError bitSize)
      else
        let bitSize := if bitSize = 0 then 64 else bitSize
        let cutoff := (2 ^ 64 - 1) / b + 1
        let maxVal := 2 ^ bitSize - 1
        match parseUintLoop b base0 cutoff maxVal digits 0 false with
        | .error e => .error e
        | .ok (n, underscores) =>
          if underscores = true ∧ underscoreOK s = false then .error .ErrSyntax
          else .ok n

/-- `strconv.ParseInt(s, base, bitSize)`. -/
def ParseInt (s : String) (base bitSize : Nat) : Except NumError Int :=
  match s.data with
  | [] => .error ⟨"ParseInt", s, .ErrSyntax⟩
  | c0 :: rest =>
    let neg : Bool := c0 == '-'
    let body := if c0 = '+' ∨ c0 = '-' then rest else c0 :: rest
    match ParseUint body base bitSize with
    | .error .ErrRange => .error ⟨"ParseInt", s, .ErrRange⟩
    | .error e => .error ⟨"ParseInt", s, e⟩
    | .ok un =>
      let bitSize := if bitSize = 0 then 64 else bitSize
      let cutoff := 2 ^ (bitSize - 1)
      if neg = false ∧ un ≥ cutoff then .error ⟨"ParseInt", s, .ErrRange⟩
      else if neg = true ∧ un > cutoff then .error ⟨"ParseInt", s, .ErrRange⟩
      else if neg = true then .ok (-(un : Int)) else .ok (un : Int)

/-- The text of `(*NumError).Error()`. `strconv.Quote` is embedded for the
strings it meets here only: `parse` passes the result of `Port`, which holds
nothing but ASCII digits, and Quote copies those between double quotes. -/
def NumError.Error (e : NumError) : String :=
  "strconv." ++ e.Func ++ ": parsing \"" ++ e.Num ++ "\": " ++
    (match e.Err with
     | .ErrSyntax => "invalid syntax"
     | .ErrRange => "value out of range"
     | .baseError b => "invalid base " ++ toString b
     | .bitSizeError b => "invalid bit size " ++ toString b)

/-! ## `net/url`: the parsed URL and its port -/

/-- A `*url.Userinfo`. -/
structure Userinfo where
  username : String
  password : String
  passwordSet : Bool
  deriving DecidableEq, Repr

/-- `(*Userinfo).Username()`. -/
def Userinfo.Username (ui : Userinfo) : String := ui.username

/-- `(*Userinfo).Password()`: the password and whether one is set. -/
def Userinfo.Password (ui : Userinfo) : String × Bool := (ui.password, ui.passwordSet)

/-- A `url.URL` as `url.Parse` returns it. `Host` is "host or host:port":
the port is not a field of its own. -/
structure URL where
  Scheme : String
  Opaque : String
  User : Option Userinfo
  Host : String
  Path : String
  RawPath : String
  ForceQuery : Bool
  RawQuery : String
  Fragment : String
  deriving DecidableEq, Repr

/-- Index of the last `c` in `s` (`strings.LastIndexByte`), `none` for -1. -/
def lastIndexByte : List Char → Char → Option Nat
  | [], _ => none
  | x :: xs, c =>
    match lastIndexByte xs c with
    | some i => some (i + 1)
    | none => if x = c then some 0 else none

/-- `url.validOptionalPort`: empty, or a colon followed by decimal digits only. -/
def validOptionalPort : List Char → Bool
  | [] => true
  | c :: rest =>
    if c ≠ ':' then false
    else rest.all (fun b => decide ('0'.toNat ≤ b.toNat ∧ b.toNat ≤ '9'.toNat))

/-- `url.splitHostPort`: separates host and port at the last colon when what
follows it is a valid port, and strips the square brackets of an IPv6 host. -/
def splitHostPort (hostPort : String) : String × String :=
  let hp := hostPort.data
  let split : List Char × List Char :=
    match lastIndexByte hp ':' with
    | some colon =>
      if validOptionalPort (hp.drop colon) then (hp.take colon, hp.drop (colon + 1))
      else (hp, [])
    | none => (hp, [])
  let host :=
    if split.1.head? = some '[' ∧ split.1.getLast? = some ']' then (split.1.drop 1).dropLast
    else split.1
  (⟨host⟩, ⟨split.2⟩)

/-- `(*URL).Hostname()`: `u.Host` without a valid port number. -/
def URL.Hostname (u : URL) : String := (splitHostPort u.Host).1

/-- `(*URL).Port()`: the port part of `u.Host`, without the leading colon;
empty when `u.Host` has no valid numeric port. -/
def URL.Port (u : URL) : String := (splitHostPort u.Host).2

/-! ## The object runtime that `uri.go` calls -/

/-- Modelled from the spec: `initializeClass(name, isModule)` is not in
`uri.go`. It declares a class of that name, a non-instantiable namespace
marker when `isModule` is set, with no superclass link, no constants and no
methods of its own yet. -/
def initializeClass (Name : String) (isModule : Bool) : RClass :=
  { Name := Name, isModule := isModule, superClass := none, pseudoSuperClass := none,
    constants := [], Methods := [] }

/-- Modelled from the spec: `(*RClass).setBuiltInMethods(methods, classMethods)`
is not in `uri.go`. It registers the built-in methods, here by name, as class
methods when the flag is set. -/
def RClass.setBuiltInMethods (c : RClass) (names : List String) (classMethods : Bool) : RClass :=
  { c with Methods := c.Methods ++ names.map (fun n => Method.builtIn n classMethods) }

/-- Modelled from the spec: `(*RClass).setAttrReader(attrs)` is not in
`uri.go`. It generates one reader per attribute name. -/
def RClass.setAttrReader (c : RClass) (attrs : List Object) : RClass :=
  { c with Methods := c.Methods ++ attrs.filterMap (fun o =>
      match o with
      | .StringObject a => some (Method.attrReader a)
      | _ => none) }

/-- Modelled from the spec: `(*RClass).setAttrWriter(attrs)` is not in
`uri.go`. It generates one writer per attribute name. -/
def RClass.setAttrWriter (c : RClass) (attrs : List Object) : RClass :=
  { c with Methods := c.Methods ++ attrs.filterMap (fun o =>
      match o with
      | .StringObject a => some (Method.attrWriter a)
      | _ => none) }

/-- Modelled from the spec: `(*RClass).initializeInstance()` is not in
`uri.go`. It is the generic instantiation primitive: a new object of the
class with no instance variable set. -/
def initializeInstance (c : Nat) : RObject := { Class := c, InstanceVariables := [] }

/-- Modelled from the spec: `(*thread).returnError(msg)` is not in `uri.go`.
It raises the error with that message in the runtime's error channel and
ends the call of the built-in method: control does not come back to the
caller. -/
def returnError {α : Type} (msg : String) : Except Failure α := .error (.raised msg)

/-- The conversion `int(p)` of an `int64`, for the 64-bit `int` of the
platforms Go is commonly built for: the value itself. -/
def int (p : Int) : Int := p

/-- Applies `f` to the class at address `a`, the write through a `*RClass`. -/
def modifyClass (heap : List RClass) (a : Nat) (f : RClass → RClass) : List RClass :=
  match heap, a with
  | [], _ => []
  | c :: cs, 0 => f c :: cs
  | c :: cs, a + 1 => c :: modifyClass cs a f

/-- The names of the methods `builtinURIClassMethods` holds. -/
def builtinURIClassMethodNames : List String := ["parse"]

/-- `initializeURIClass(vm)`, lines 8 to 32. The three classes are allocated
at the next free addresses of the class heap. -/
def initializeURIClass (vm : VM) : VM :=
  let uri := vm.heap.length
  let http := vm.heap.length + 1
  let https := vm.heap.length + 2
  let heap := vm.heap ++
    [initializeClass "URI" true, initializeClass "HTTP" false, initializeClass "HTTPS" false]
  let heap := modifyClass heap https (fun c => { c with superClass := some http })
  let heap := modifyClass heap https (fun c => { c with pseudoSuperClass := some http })
  let heap := modifyClass heap uri (fun c =>
    { c with constants := c.constants.set "HTTP" ⟨http⟩ })
  let heap := modifyClass heap uri (fun c =>
    { c with constants := c.constants.set "HTTPS" ⟨https⟩ })
  let heap := modifyClass heap uri (fun c =>
    c.setBuiltInMethods builtinURIClassMethodNames true)
  let attrs : List Object :=
    [.StringObject "host", .StringObject "path", .StringObject "port", .StringObject "query",
     .StringObject "scheme", .StringObject "user", .StringObject "password"]
  let heap := modifyClass heap http (fun c => c.setAttrReader attrs)
  let heap := modifyClass heap http (fun c => c.setAttrWriter attrs)
  { constants := vm.constants.set "URI" ⟨uri⟩, heap := heap }

/-- The VM before any class is registered. -/
def emptyVM : VM := { constants := [], heap := [] }

/-! ## `parse` -/

/-- Lines 56 to 67 of `parse`: the map literal, then scheme and host. -/
def baseAttrs (u : URL) : GoMap Object :=
  let attrs : GoMap Object :=
    [("@user", .NULL), ("@password", .NULL), ("@query", .NULL), ("@path", .StringObject "/")]
  -- Scheme
  let attrs := attrs.set "@scheme" (.StringObject u.Scheme)
  -- Host
  attrs.set "@host" (.StringObject u.Host)

/-- Lines 69 to 85 of `parse`: the port, or the error raised for it. -/
def portAttr (u : URL) (attrs : GoMap Object) : Except Failure (GoMap Object) :=
  if u.Port.length = 0 then
    if u.Scheme = "http" then .ok (attrs.set "@port" (.IntegerObject 80))
    else if u.Scheme = "https" then .ok (attrs.set "@port" (.IntegerObject 443))
    else .ok attrs
  else
    match ParseInt u.Port 0 64 with
    | .error err => returnError err.Error
    | .ok p => .ok (attrs.set "@port" (.IntegerObject (int p)))

/-- Lines 87 to 90 of `parse`: the path. -/
def pathAttr (u : URL) (attrs : GoMap Object) : GoMap Object :=
  if u.Path.length ≠ 0 then attrs.set "@path" (.StringObject u.Path) else attrs

/-- Lines 92 to 95 of `parse`: the query. -/
def queryAttr (u : URL) (attrs : GoMap Object) : GoMap Object :=
  if u.RawQuery.length ≠ 0 then attrs.set "@query" (.StringObject u.RawQuery) else attrs

/-- Lines 97 to 106 of `parse`: user and password. -/
def userAttrs (u : URL) (attrs : GoMap Object) : GoMap Object :=
  match u.User with
  | none => attrs
  | some ui =>
    let attrs :=
      if ui.Username.length ≠ 0 then attrs.set "@user" (.StringObject ui.Username) else attrs
    if ui.Password.2 = true then attrs.set "@password" (.StringObject ui.Password.1)
    else attrs

/-- Lines 56 to 106 of `parse`: the attribute map built from the parsed URL
`u`, or the error raised for its port, which ends the call before the path
is looked at. -/
def uriAttrs (u : URL) : Except Failure (GoMap Object) :=
  match portAttr u (baseAttrs u) with
  | .error e => .error e
  | .ok attrs => .ok (userAttrs u (queryAttr u (pathAttr u attrs)))

/-- Modelled from the spec: `(*environment).set(name, value)`, the method
behind `i.InstanceVariables.set`, is not in `uri.go`. It stores the value in
the slot of that name of the instance-variable storage and replaces what the
slot held. -/
@[reducible]
def environmentSet (store : GoMap Object) (name : String) (value : Object) : GoMap Object :=
  store.set name value

/-- The loop of lines 118 to 120: every entry of the map is set as an
instance variable, in the order the entries are listed in. -/
def assignAll (i : RObject) (attrs : GoMap Object) : RObject :=
  attrs.foldl
    (fun i kv => { i with InstanceVariables := environmentSet i.InstanceVariables kv.1 kv.2 }) i

/-- The body of the built-in class method `parse`, lines 47 to 123.
`urlParse` is `url.Parse` of the Go standard library, with the text of
`err.Error()` as its error; `vm` is `t.vm` and `args` the arguments of the
call. -/
def parse (urlParse : String → Except String URL) (vm : VM) (args : List Object) :
    Except Failure RObject :=
  match args with
  | .StringObject uri :: _ =>
    match vm.constants.get "URI" with
    | none => .error .goPanic
    | some uriPtr =>
      match vm.heap.get? uriPtr.Target with
      | none => .error .goPanic
      | some uriModule =>
        match urlParse uri with
        | .error err => returnError err
        | .ok u =>
          match uriAttrs u with
          | .error e => .error e
          | .ok attrs =>
            match uriModule.constants.get (if u.Scheme = "https" then "HTTPS" else "HTTP") with
            | none => .error .goPanic
            | some cPtr =>
              match vm.heap.get? cPtr.Target with
              | none => .error .goPanic
              | some _ => .ok (assignAll (initializeInstance cPtr.Target) attrs)
  | _ => .error .goPanic

/-- The name of the class of an instance. -/
def className (vm : VM) (i : RObject) : Option String := (vm.heap.get? i.Class).map (·.Name)

/-- The instance variable `name` of an instance, `none` when it was never set. -/
def ivar (i : RObject) (name : String) : Option Object := i.InstanceVariables.get name

/-- A URL with the given scheme, host, path and query and nothing else. -/
def mkURL (scheme host path query : String) (user : Option Userinfo) : URL :=
  { Scheme := scheme, Opaque := "", User := user, Host := host, Path := path, RawPath := "",
    ForceQuery := false, RawQuery := query, Fragment := "" }

/-- What `url.Parse` of Go returns for a few URIs; every other string is
answered with an error. It serves to run `parse` on concrete inputs. -/
def sampleParse (uri : String) : Except String URL :=
  if uri = "https://example.com" then .ok (mkURL "https" "example.com" "" "" none)
  else if uri = "http://example.com:8080/a/b?x=1" then
    .ok (mkURL "http" "example.com:8080" "/a/b" "x=1" none)
  else if uri = "ftp://example.com" then .ok (mkURL "ftp" "example.com" "" "" none)
  else if uri = "http://user:@example.com" then
    .ok (mkURL "http" "example.com" "" "" (some ⟨"user", "", true⟩))
  else if uri = "http://user@example.com" then
    .ok (mkURL "http" "example.com" "" "" (some ⟨"user", "", false⟩))
  else if uri = "http://example.com:010/" then .ok (mkURL "http" "example.com:010" "/" "" none)
  else if uri = "http://example.com:08/" then .ok (mkURL "http" "example.com:08" "/" "" none)
  else if uri = "http://example.com:9223372036854775808/" then
    .ok (mkURL "http" "example.com:9223372036854775808" "/" "" none)
  else if uri = "http://example.com:99999999999999999999/" then
    .ok (mkURL "http" "example.com:99999999999999999999" "/" "" none)
  else if uri = "http://example.com:abc" then
    .error "parse \"http://example.com:abc\": invalid port \":abc\" after host"
  else .error "sampleParse: no entry for this string"

/-! ## Decimal numerals, in the spec's words -/

/-- The value a decimal digit contributes and the step to the next digit. -/
def decimalStep (n : Nat) (c : Char) : Nat := 10 * n + (c.toNat - '0'.toNat)

/-- The integer a string of decimal digits denotes in decimal. -/
def decimalValue (s : String) : Nat := s.data.foldl decimalStep 0

/-- A decimal digit, `'0'` to `'9'`. -/
def isDecimalDigit (c : Char) : Prop := '0'.toNat ≤ c.toNat ∧ c.toNat ≤ '9'.toNat

instance (c : Char) : Decidable (isDecimalDigit c) := by
  unfold isDecimalDigit
  exact inferInstance

/-- A numeric string: non-empty and made of decimal digits only. -/
def isNumeric (s : String) : Prop := s.data ≠ [] ∧ ∀ c ∈ s.data, isDecimalDigit c

instance (s : String) : Decidable (isNumeric s) := by
  unfold isNumeric
  exact inferInstance

/-- A numeral without a leading zero: its first digit is not `'0'`, or it is
the string "0". -/
def noLeadingZero (s : String) : Prop := s.data.head? ≠ some '0' ∨ s.data = ['0']

instance (s : String) : Decidable (noLeadingZero s) := by
  unfold noLeadingZero
  exact inferInstance

/-! ## Sample runs -/

/-- The instance `parse` returns for "https://example.com" on a fresh VM. -/
def exampleHTTPS : RObject :=
  { Class := 2,
    InstanceVariables :=
      [("@user", .NULL), ("@password", .NULL), ("@query", .NULL), ("@path", .StringObject "/"),
       ("@scheme", .StringObject "https"), ("@host", .StringObject "example.com"),
       ("@port", .IntegerObject 443)] }

/-- The instance `parse` returns for "ftp://example.com" on a fresh VM. -/
def exampleFTP : RObject :=
  { Class := 1,
    InstanceVariables :=
      [("@user", .NULL), ("@password", .NULL), ("@query", .NULL), ("@path", .StringObject "/"),
       ("@scheme", .StringObject "ftp"), ("@host", .StringObject "example.com")] }

/-- The instance `parse` returns for "http://example.com:8080/a/b?x=1" on a
fresh VM. -/
def exampleHTTP8080 : RObject :=
  { Class := 1,
    InstanceVariables :=
      [("@user", .NULL), ("@password", .NULL), ("@query", .StringObject "x=1"),
       ("@path", .StringObject "/a/b"), ("@scheme", .StringObject "http"),
       ("@host", .StringObject "example.com:8080"), ("@port", .IntegerObject 8080)] }

/-- The instance `parse` returns for "http://example.com:010/" on a fresh VM. -/
def exampleHTTP010 : RObject :=
  { Class := 1,
    InstanceVariables :=
      [("@user", .NULL), ("@password", .NULL), ("@query", .NULL), ("@path", .StringObject "/"),
       ("@scheme", .StringObject "http"), ("@host", .StringObject "example.com:010"),
       ("@port", .IntegerObject 8)] }

/-- The instance `parse` returns for "http://user:@example.com" on a fresh VM. -/
def exampleUser : RObject :=
  { Class := 1,
    InstanceVariables :=
      [("@user", .StringObject "user"), ("@password", .StringObject ""), ("@query", .NULL),
       ("@path", .StringObject "/"), ("@scheme", .StringObject "http"),
       ("@host", .StringObject "example.com"), ("@port", .IntegerObject 80)] }

/-- What `url.Parse` of Go returns for the relative reference "/a/b", which
has no scheme and no host, and for a URI with a query; every other string
goes to `sampleParse`. -/
def sampleParseMore (uri : String) : Except String URL :=
  if uri = "/a/b" then .ok (mkURL "" "" "/a/b" "" none)
  else if uri = "http://example.com/?x=1" then .ok (mkURL "http" "example.com" "/" "x=1" none)
  else sampleParse uri

/-- The instance `parse` returns for "/a/b" on a fresh VM. -/
def exampleRelative : RObject :=
  { Class := 1,
    InstanceVariables :=
      [("@user", .NULL), ("@password", .NULL), ("@query", .NULL),
       ("@path", .StringObject "/a/b"), ("@scheme", .StringObject ""),
       ("@host", .StringObject "")] }

/-- The instance `parse` returns for "http://example.com/?x=1" on a fresh VM. -/
def exampleQuery : RObject :=
  { Class := 1,
    InstanceVariables :=
      [("@user", .NULL), ("@password", .NULL), ("@query", .StringObject "x=1"),
       ("@path", .StringObject "/"), ("@scheme", .StringObject "http"),
       ("@host", .StringObject "example.com"), ("@port", .IntegerObject 80)] }

/-! ## The order of the assignment loop -/

/-- The body of `parse`, lines 47 to 123, with the order of the `range` loop
of lines 118 to 120 made explicit. Go does not specify the order in which a
map is ranged over: the loop visits `order attrs`, some listing of the
entries of the map. `parse` is the case in which they are visited as listed. -/
def parseOrdered (order : GoMap Object → GoMap Object)
    (urlParse : String → Except String URL) (vm : VM) (args : List Object) :
    Except Failure RObject :=
  match args with
  | .StringObject uri :: _ =>
    match vm.constants.get "URI" with
    | none => .error .goPanic
    | some uriPtr =>
      match vm.heap.get? uriPtr.Target with
      | none => .error .goPanic
      | some uriModule =>
        match urlParse uri with
        | .error err => returnError err
        | .ok u =>
          match uriAttrs u with
          | .error e => .error e
          | .ok attrs =>
            match uriModule.constants.get (if u.Scheme = "https" then "HTTPS" else "HTTP") with
            | none => .error .goPanic
            | some cPtr =>
              match vm.heap.get? cPtr.Target with
              | none => .error .goPanic
              | some _ => .ok (assignAll (initializeInstance cPtr.Target) (order attrs))
  | _ => .error .goPanic

/-- The instance `parse` returns for "https://example.com" on a fresh VM when
the loop visits the entries of the map in the reverse order. -/
def exampleHTTPSReversed : RObject :=
  { Class := 2,
    InstanceVariables :=
      [("@port", .IntegerObject 443), ("@host", .StringObject "example.com"),
       ("@scheme", .StringObject "https"), ("@path", .StringObject "/"), ("@query", .NULL),
       ("@password", .NULL), ("@user", .NULL)] }

/-- The instance `parse` returns for "http://user:@example.com" on a fresh VM
when the loop visits the entries of the map in the reverse order. -/
def exampleUserReversed : RObject :=
  { Class := 1,
    InstanceVariables :=
      [("@port", .IntegerObject 80), ("@host", .StringObject "example.com"),
       ("@scheme", .StringObject "http"), ("@path", .StringObject "/"), ("@query", .NULL),
       ("@password", .StringObject ""), ("@user", .StringObject "user")] }

/-! ## A port text that is not numeric -/

/-- The text after the last colon of `Host`, where an authority carries its
port; empty when `Host` has no colon. -/
def URL.afterLastColon (u : URL) : String :=
  match lastIndexByte u.Host.data ':' with
  | some colon => ⟨u.Host.data.drop (colon + 1)⟩
  | none => ""

/-- A URL parser that, unlike `url.Parse` of Go, accepts a port that is not
numeric and hands the authority over as it is: the parsed components the
claim on non-numeric ports speaks of. -/
def lenientParse (uri : String) : Except String URL :=
  if uri = "http://example.com:abc" then .ok (mkURL "http" "example.com:abc" "" "" none)
  else sampleParse uri

/-- The instance `parse` returns for the parsed host "example.com:abc" on a
fresh VM. -/
def exampleHTTPabc : RObject :=
  { Class := 1,
    InstanceVariables :=
      [("@user", .NULL), ("@password", .NULL), ("@query", .NULL), ("@path", .StringObject "/"),
       ("@scheme", .StringObject "http"), ("@host", .StringObject "example.com:abc"),
       ("@port", .IntegerObject 80)] }

/-! ## Lemmas on maps and on the class heap -/

theorem GoMap.get_set_same {V : Type} (m : GoMap V) (k : String) (v : V) :
    (m.set k v).get k = some v := by
  induction m with
  | nil => simp [GoMap.set, GoMap.get]
  | cons e rest ih =>
    obtain ⟨k', v'⟩ := e
    by_cases h : k' = k
    · simp [GoMap.set, GoMap.get, h]
    · simp [GoMap.set, GoMap.get, h, ih]

theorem GoMap.get_set_other {V : Type} (m : GoMap V) (k k2 : String) (v : V) (hne : k ≠ k2) :
    (m.set k v).get k2 = m.get k2 := by
  induction m with
  | nil => simp [GoMap.set, GoMap.get, hne]
  | cons e rest ih =>
    obtain ⟨k', v'⟩ := e
    by_cases h : k' = k
    · subst h
      simp [GoMap.set, GoMap.get, hne]
    · by_cases h2 : k' = k2
      · simp [GoMap.set, GoMap.get, h, h2]
        subst h2
        simp [h, GoMap.get]
      · simp [GoMap.set, GoMap.get, h, h2, ih]

theorem GoMap.get_eq_none_of_not_mem_keys {V : Type} (m : GoMap V) (k : String)
    (h : k ∉ m.keys) : m.get k = none := by
  induction m with
  | nil => rfl
  | cons e rest ih =>
    obtain ⟨k', v'⟩ := e
    simp only [GoMap.keys, List.map_cons, List.mem_cons, not_or] at h
    have hk : ¬ k' = k := fun h' => h.1 h'.symm
    simp only [GoMap.get, hk, if_false]
    exact ih h.2

theorem GoMap.keys_set {V : Type} (m : GoMap V) (k : String) (v : V) :
    (m.set k v).keys = if k ∈ m.keys then m.keys else m.keys ++ [k] := by
  induction m with
  | nil => simp [GoMap.set, GoMap.keys]
  | cons e rest ih =>
    obtain ⟨k', v'⟩ := e
    by_cases h : k' = k
    · subst h
      simp [GoMap.set, GoMap.keys]
    · have h' : ¬ k = k' := fun e => h e.symm
      simp only [GoMap.keys] at ih
      by_cases hm : k ∈ List.map Prod.fst rest
      · simp [GoMap.set, GoMap.keys, h, h', hm, ih]
      · simp [GoMap.set, GoMap.keys, h, h', hm, ih]

theorem GoMap.mem_keys_set {V : Type} (m : GoMap V) (k k2 : String) (v : V) :
    k2 ∈ (m.set k v).keys ↔ k2 = k ∨ k2 ∈ m.keys := by
  rw [GoMap.keys_set]
  by_cases hm : k ∈ m.keys
  · simp only [hm, if_true]
    constructor
    · exact fun h => Or.inr h
    · rintro (h | h)
      · exact h ▸ hm
      · exact h
  · simp only [hm, if_false, List.mem_append, List.mem_singleton]
    tauto

theorem GoMap.nodup_keys_set {V : Type} (m : GoMap V) (k : String) (v : V)
    (h : m.keys.Nodup) : (m.set k v).keys.Nodup := by
  rw [GoMap.keys_set]
  by_cases hm : k ∈ m.keys
  · simpa [hm] using h
  · simp only [hm, if_false]
    exact List.Nodup.append h (List.nodup_singleton k) (by simpa using hm)

/-- The instance variables after the assignment loop: an entry of the map
wins over what the object held before. -/
theorem assignAll_get (attrs : GoMap Object) (h : attrs.keys.Nodup) (i : RObject) (k : String) :
    (assignAll i attrs).InstanceVariables.get k =
      (match attrs.get k with
       | some v => some v
       | none => i.InstanceVariables.get k) := by
  induction attrs generalizing i with
  | nil => simp [assignAll, GoMap.get]
  | cons e rest ih =>
    obtain ⟨k', v'⟩ := e
    simp only [GoMap.keys, List.map_cons, List.nodup_cons] at h
    have ih' := ih h.2 { i with InstanceVariables := i.InstanceVariables.set k' v' }
    simp only [assignAll, List.foldl_cons] at ih' ⊢
    rw [ih']
    by_cases hk : k' = k
    · subst hk
      rw [GoMap.get_eq_none_of_not_mem_keys rest k' h.1]
      simp [GoMap.get, GoMap.get_set_same]
    · simp [GoMap.get, hk, GoMap.get_set_other _ _ _ _ hk]

theorem assignAll_Class (attrs : GoMap Object) (i : RObject) :
    (assignAll i attrs).Class = i.Class := by
  induction attrs generalizing i with
  | nil => rfl
  | cons e rest ih =>
    simp only [assignAll, List.foldl_cons] at ih ⊢
    rw [ih]

theorem modifyClass_append (l r : List RClass) (k : Nat) (f : RClass → RClass) :
    modifyClass (l ++ r) (l.length + k) f = l ++ modifyClass r k f := by
  induction l with
  | nil => simp
  | cons c cs ih =>
    have : (c :: cs).length + k = (cs.length + k) + 1 := by simp; omega
    simp only [List.cons_append, this, modifyClass, ih]

theorem modifyClass_append_zero (l r : List RClass) (f : RClass → RClass) :
    modifyClass (l ++ r) l.length f = l ++ modifyClass r 0 f :=
  modifyClass_append l r 0 f

/-- The heap after registration: three classes appended, with their links. -/
theorem initializeURIClass_heap (vm : VM) :
    (initializeURIClass vm).heap = vm.heap ++
      [{ Name := "URI", isModule := true, superClass := none, pseudoSuperClass := none,
         constants := [("HTTP", ⟨vm.heap.length + 1⟩), ("HTTPS", ⟨vm.heap.length + 2⟩)],
         Methods := [Method.builtIn "parse" true] },
       (((initializeClass "HTTP" false).setAttrReader
          [.StringObject "host", .StringObject "path", .StringObject "port",
           .StringObject "query", .StringObject "scheme", .StringObject "user",
           .StringObject "password"]).setAttrWriter
          [.StringObject "host", .StringObject "path", .StringObject "port",
           .StringObject "query", .StringObject "scheme", .StringObject "user",
           .StringObject "password"]),
       { Name := "HTTPS", isModule := false, superClass := some (vm.heap.length + 1),
         pseudoSuperClass := some (vm.heap.length + 1), constants := [], Methods := [] }] := by
  simp only [initializeURIClass, modifyClass_append, modifyClass_append_zero]
  simp [modifyClass, initializeClass, GoMap.set, RClass.setBuiltInMethods,
    builtinURIClassMethodNames]

theorem initializeURIClass_constants (vm : VM) :
    (initializeURIClass vm).constants.get "URI" = some ⟨vm.heap.length⟩ := by
  simp only [initializeURIClass]
  exact GoMap.get_set_same _ _ _

/-- The lookups of `parse` on a VM on which `initializeURIClass` has run never
fail: the call is decided by the URL parser and by the attributes alone. -/
theorem parse_initialized (urlParse : String → Except String URL) (vm : VM) (uri : String) :
    parse urlParse (initializeURIClass vm) [.StringObject uri] =
      (match urlParse uri with
       | .error err => .error (.raised err)
       | .ok u =>
         match uriAttrs u with
         | .error e => .error e
         | .ok attrs =>
           .ok (assignAll
             (initializeInstance (vm.heap.length + (if u.Scheme = "https" then 2 else 1)))
             attrs)) := by
  simp only [parse, initializeURIClass_constants, initializeURIClass_heap, returnError]
  rw [List.get?_eq_getElem?, List.getElem?_append_right (le_refl _)]
  simp only [Nat.sub_self, List.getElem?_cons_zero]
  cases hp : urlParse uri with
  | error err => rfl
  | ok u =>
    simp only []
    cases ha : uriAttrs u with
    | error e => rfl
    | ok attrs =>
      by_cases hs : u.Scheme = "https"
      · simp [hs, GoMap.get]
      · simp [hs, GoMap.get]


/-! ## What each step of `parse` does to each key -/

theorem baseAttrs_keys (u : URL) :
    (baseAttrs u).keys = ["@user", "@password", "@query", "@path", "@scheme", "@host"] := by
  simp [baseAttrs, GoMap.set, GoMap.keys]

theorem baseAttrs_get (u : URL) :
    (baseAttrs u).get "@user" = some .NULL ∧ (baseAttrs u).get "@password" = some .NULL ∧
    (baseAttrs u).get "@query" = some .NULL ∧
    (baseAttrs u).get "@path" = some (.StringObject "/") ∧
    (baseAttrs u).get "@scheme" = some (.StringObject u.Scheme) ∧
    (baseAttrs u).get "@host" = some (.StringObject u.Host) ∧
    (baseAttrs u).get "@port" = none := by
  simp [baseAttrs, GoMap.set, GoMap.get]

theorem portAttr_get_other (u : URL) (a a' : GoMap Object) (k : String) (hk : "@port" ≠ k)
    (h : portAttr u a = .ok a') : a'.get k = a.get k := by
  unfold portAttr at h
  split at h
  · split at h
    · cases h; exact GoMap.get_set_other _ _ _ _ hk
    · split at h
      · cases h; exact GoMap.get_set_other _ _ _ _ hk
      · cases h; rfl
  · split at h
    · simp [returnError] at h
    · cases h; exact GoMap.get_set_other _ _ _ _ hk

theorem pathAttr_get_other (u : URL) (a : GoMap Object) (k : String) (hk : "@path" ≠ k) :
    (pathAttr u a).get k = a.get k := by
  unfold pathAttr
  split
  · exact GoMap.get_set_other _ _ _ _ hk
  · rfl

theorem queryAttr_get_other (u : URL) (a : GoMap Object) (k : String) (hk : "@query" ≠ k) :
    (queryAttr u a).get k = a.get k := by
  unfold queryAttr
  split
  · exact GoMap.get_set_other _ _ _ _ hk
  · rfl

theorem userAttrs_get_other (u : URL) (a : GoMap Object) (k : String) (hu : "@user" ≠ k)
    (hp : "@password" ≠ k) : (userAttrs u a).get k = a.get k := by
  unfold userAttrs
  split
  · rfl
  · split <;> split <;>
      simp only [GoMap.get_set_other _ _ _ _ hu, GoMap.get_set_other _ _ _ _ hp]

theorem portAttr_nodup (u : URL) (a a' : GoMap Object) (ha : a.keys.Nodup)
    (h : portAttr u a = .ok a') : a'.keys.Nodup := by
  unfold portAttr at h
  split at h
  · split at h
    · cases h; exact GoMap.nodup_keys_set _ _ _ ha
    · split at h
      · cases h; exact GoMap.nodup_keys_set _ _ _ ha
      · cases h; exact ha
  · split at h
    · simp [returnError] at h
    · cases h; exact GoMap.nodup_keys_set _ _ _ ha

theorem pathAttr_nodup (u : URL) (a : GoMap Object) (ha : a.keys.Nodup) :
    (pathAttr u a).keys.Nodup := by
  unfold pathAttr
  split
  · exact GoMap.nodup_keys_set _ _ _ ha
  · exact ha

theorem queryAttr_nodup (u : URL) (a : GoMap Object) (ha : a.keys.Nodup) :
    (queryAttr u a).keys.Nodup := by
  unfold queryAttr
  split
  · exact GoMap.nodup_keys_set _ _ _ ha
  · exact ha

theorem userAttrs_nodup (u : URL) (a : GoMap Object) (ha : a.keys.Nodup) :
    (userAttrs u a).keys.Nodup := by
  unfold userAttrs
  split
  · exact ha
  · split <;> split <;>
      first
        | exact GoMap.nodup_keys_set _ _ _ (GoMap.nodup_keys_set _ _ _ ha)
        | exact GoMap.nodup_keys_set _ _ _ ha
        | exact ha

theorem baseAttrs_nodup (u : URL) : (baseAttrs u).keys.Nodup := by
  rw [baseAttrs_keys]
  decide

/-- The map `parse` builds holds every key once. -/
theorem uriAttrs_nodup (u : URL) (attrs : GoMap Object) (h : uriAttrs u = .ok attrs) :
    attrs.keys.Nodup := by
  unfold uriAttrs at h
  split at h
  · cases h
  · rename_i a ha
    cases h
    exact userAttrs_nodup u _ (queryAttr_nodup u _ (pathAttr_nodup u _
      (portAttr_nodup u _ a (baseAttrs_nodup u) ha)))

/-- What a successful call on an initialized VM returned: the class is the
one registered for the scheme, and the instance variables are the entries of
the attribute map. -/
theorem parse_ok_inv (urlParse : String → Except String URL) (vm : VM) (uri : String) (u : URL)
    (i : RObject) (hp : urlParse uri = .ok u)
    (h : parse urlParse (initializeURIClass vm) [.StringObject uri] = .ok i) :
    ∃ a, portAttr u (baseAttrs u) = .ok a ∧
      i.Class = vm.heap.length + (if u.Scheme = "https" then 2 else 1) ∧
      ∀ k, ivar i k = (userAttrs u (queryAttr u (pathAttr u a))).get k := by
  rw [parse_initialized, hp] at h
  simp only [] at h
  cases hu : uriAttrs u with
  | error e => rw [hu] at h; cases h
  | ok attrs =>
    rw [hu] at h
    have hnd := uriAttrs_nodup u attrs hu
    unfold uriAttrs at hu
    split at hu
    · cases hu
    · rename_i a ha
      cases hu
      cases h
      refine ⟨a, ha, assignAll_Class _ _, fun k => ?_⟩
      unfold ivar
      rw [assignAll_get _ hnd]
      cases (userAttrs u (queryAttr u (pathAttr u a))).get k <;>
        simp [initializeInstance, GoMap.get]

/-- A successful call happens exactly when the parser and the port step succeed. -/
theorem parse_ok_of (urlParse : String → Except String URL) (vm : VM) (uri : String) (u : URL)
    (a : GoMap Object) (hp : urlParse uri = .ok u) (ha : portAttr u (baseAttrs u) = .ok a) :
    ∃ i, parse urlParse (initializeURIClass vm) [.StringObject uri] = .ok i := by
  rw [parse_initialized, hp]
  simp only [uriAttrs, ha]
  exact ⟨_, rfl⟩

theorem className_initialized (vm : VM) (i : RObject) (s : String)
    (h : i.Class = vm.heap.length + (if s = "https" then 2 else 1)) :
    className (initializeURIClass vm) i = some (if s = "https" then "HTTPS" else "HTTP") := by
  unfold className
  rw [initializeURIClass_heap, h, List.get?_eq_getElem?,
    List.getElem?_append_right (Nat.le_add_right _ _)]
  by_cases hs : s = "https"
  · simp [hs]
  · simp [hs, RClass.setAttrWriter, RClass.setAttrReader, initializeClass]

theorem length_eq_zero_iff (s : String) : s.length = 0 ↔ s = "" := by
  obtain ⟨l⟩ := s
  constructor
  · intro h
    have hl : l = [] := List.length_eq_zero.mp h
    subst hl
    rfl
  · intro h
    rw [h]
    rfl

/-! ## The claims -/

/-- C1: when the URL parser succeeds and `parse` returns an instance, the
class of the instance is HTTPS exactly when the parsed scheme is the string
"https"; for every other scheme ("http", the empty scheme, "HTTPS", "ftp")
it is HTTP. -/
theorem parse_class_https_iff (urlParse : String → Except String URL) (vm : VM) (uri : String)
    (u : URL) (i : RObject) (hp : urlParse uri = .ok u)
    (h : parse urlParse (initializeURIClass vm) [.StringObject uri] = .ok i) :
    (className (initializeURIClass vm) i = some "HTTPS" ↔ u.Scheme = "https") ∧
    (u.Scheme ≠ "https" → className (initializeURIClass vm) i = some "HTTP") := by
  obtain ⟨a, _, hc, _⟩ := parse_ok_inv urlParse vm uri u i hp h
  rw [className_initialized vm i u.Scheme hc]
  by_cases hs : u.Scheme = "https"
  · simp [hs]
  · simp [hs]

theorem parse_class_https_iff_witness :
    sampleParse "https://example.com" = .ok (mkURL "https" "example.com" "" "" none) ∧
    parse sampleParse (initializeURIClass emptyVM) [.StringObject "https://example.com"] =
      .ok exampleHTTPS ∧
    (className (initializeURIClass emptyVM) exampleHTTPS = some "HTTPS" ↔
      (mkURL "https" "example.com" "" "" none).Scheme = "https") ∧
    ((mkURL "https" "example.com" "" "" none).Scheme ≠ "https" →
      className (initializeURIClass emptyVM) exampleHTTPS = some "HTTP") :=
  ⟨by decide, by decide,
    parse_class_https_iff sampleParse emptyVM "https://example.com"
      (mkURL "https" "example.com" "" "" none) exampleHTTPS (by decide) (by decide)⟩

/-- C2: when the parsed URL carries no explicit port, the instance has port
80 for scheme "http", port 443 for scheme "https", and for every other
scheme no port at all: the instance variable is not set, so it holds no
integer, zero included. -/
theorem parse_port_default (urlParse : String → Except String URL) (vm : VM) (uri : String)
    (u : URL) (i : RObject) (hp : urlParse uri = .ok u)
    (h : parse urlParse (initializeURIClass vm) [.StringObject uri] = .ok i)
    (hport : u.Port = "") :
    (u.Scheme = "http" → ivar i "@port" = some (.IntegerObject 80)) ∧
    (u.Scheme = "https" → ivar i "@port" = some (.IntegerObject 443)) ∧
    (u.Scheme ≠ "http" → u.Scheme ≠ "https" →
      ivar i "@port" = none ∧ ∀ n, ivar i "@port" ≠ some (.IntegerObject n)) := by
  obtain ⟨a, ha, _, hi⟩ := parse_ok_inv urlParse vm uri u i hp h
  have hk : ivar i "@port" = a.get "@port" := by
    rw [hi, userAttrs_get_other _ _ _ (by decide) (by decide),
      queryAttr_get_other _ _ _ (by decide), pathAttr_get_other _ _ _ (by decide)]
  have hl : u.Port.length = 0 := (length_eq_zero_iff _).mpr hport
  simp only [portAttr, hl, if_true] at ha
  refine ⟨fun hs => ?_, fun hs => ?_, fun h1 h2 => ?_⟩
  · simp only [hs, if_true] at ha
    cases ha
    rw [hk, GoMap.get_set_same]
  · have hne : ¬ u.Scheme = "http" := by rw [hs]; decide
    simp only [hne, hs, if_true, if_false] at ha
    cases ha
    rw [hk, GoMap.get_set_same]
  · simp only [h1, h2, if_false] at ha
    cases ha
    rw [hk, (baseAttrs_get u).2.2.2.2.2.2]
    exact ⟨rfl, fun n hn => by cases hn⟩

theorem parse_port_default_witness :
    sampleParse "ftp://example.com" = .ok (mkURL "ftp" "example.com" "" "" none) ∧
    parse sampleParse (initializeURIClass emptyVM) [.StringObject "ftp://example.com"] =
      .ok exampleFTP ∧
    (mkURL "ftp" "example.com" "" "" none).Port = "" ∧
    ((mkURL "ftp" "example.com" "" "" none).Scheme = "http" →
      ivar exampleFTP "@port" = some (.IntegerObject 80)) ∧
    ((mkURL "ftp" "example.com" "" "" none).Scheme = "https" →
      ivar exampleFTP "@port" = some (.IntegerObject 443)) ∧
    ((mkURL "ftp" "example.com" "" "" none).Scheme ≠ "http" →
      (mkURL "ftp" "example.com" "" "" none).Scheme ≠ "https" →
      ivar exampleFTP "@port" = none ∧ ∀ n, ivar exampleFTP "@port" ≠ some (.IntegerObject n)) :=
  ⟨by decide, by decide, by decide,
    parse_port_default sampleParse emptyVM "ftp://example.com"
      (mkURL "ftp" "example.com" "" "" none) exampleFTP (by decide) (by decide) (by decide)⟩

/-! ## `ParseInt` on decimal numerals -/

theorem decimalStep_foldl_ge (cs : List Char) (n : Nat) : n ≤ cs.foldl decimalStep n := by
  induction cs generalizing n with
  | nil => exact le_refl _
  | cons c cs ih =>
    simp only [List.foldl_cons]
    have := ih (decimalStep n c)
    unfold decimalStep at this ⊢
    omega

theorem parseUintLoop_decimal (cs : List Char) (n : Nat) (hd : ∀ c ∈ cs, isDecimalDigit c)
    (hb : cs.foldl decimalStep n < 2 ^ 63) :
    parseUintLoop 10 true ((2 ^ 64 - 1) / 10 + 1) (2 ^ 64 - 1) cs n false =
      .ok (cs.foldl decimalStep n, false) := by
  induction cs generalizing n with
  | nil => rfl
  | cons c cs ih =>
    have hc := hd c (List.mem_cons_self _ _)
    have hcs : ∀ c' ∈ cs, isDecimalDigit c' := fun c' h' => hd c' (List.mem_cons_of_mem _ h')
    simp only [List.foldl_cons] at hb ⊢
    have hge := decimalStep_foldl_ge cs (decimalStep n c)
    have ih' := ih (decimalStep n c) hcs hb
    unfold isDecimalDigit at hc
    have h0 : '0'.toNat = 48 := rfl
    have h9 : '9'.toNat = 57 := rfl
    rw [h0, h9] at hc
    have hne : c ≠ '_' := by
      intro e
      rw [e] at hc
      have : '_'.toNat = 95 := rfl
      omega
    have hstep : decimalStep n c = 10 * n + (c.toNat - 48) := rfl
    have hlt : 10 * n + (c.toNat - 48) < 2 ^ 63 := by omega
    unfold parseUintLoop
    simp only [hne, false_and, if_false, h0, h9, hc, and_self, if_true]
    have hd10 : ¬ (c.toNat - 48 ≥ 10) := by omega
    have hcut : ¬ (n ≥ (2 ^ 64 - 1) / 10 + 1) := by
      norm_num
      norm_num at hlt
      omega
    have hm1 : n * 10 % 2 ^ 64 = n * 10 := Nat.mod_eq_of_lt (by norm_num at hlt ⊢; omega)
    have hm2 : (n * 10 + (c.toNat - 48)) % 2 ^ 64 = n * 10 + (c.toNat - 48) :=
      Nat.mod_eq_of_lt (by norm_num at hlt ⊢; omega)
    simp only [hd10, hcut, if_false, hm1, hm2]
    have hov : ¬ (n * 10 + (c.toNat - 48) < n * 10 ∨ n * 10 + (c.toNat - 48) > 2 ^ 64 - 1) := by
      norm_num at hlt ⊢
      omega
    simp only [hov, if_false]
    have he : n * 10 + (c.toNat - 48) = decimalStep n c := by rw [hstep]; omega
    rw [he]
    exact ih'

theorem ParseUint_decimal (c0 : Char) (rest : List Char) (h0 : c0 ≠ '0')
    (hd : ∀ c ∈ c0 :: rest, isDecimalDigit c)
    (hb : (c0 :: rest).foldl decimalStep 0 < 2 ^ 63) :
    ParseUint (c0 :: rest) 0 64 = .ok ((c0 :: rest).foldl decimalStep 0) := by
  have hl := parseUintLoop_decimal (c0 :: rest) 0 hd hb
  unfold ParseUint
  simp only [h0, if_false]
  norm_num
  norm_num at hl
  rw [hl]
  simp

/-- On a decimal numeral without a leading zero and below 2^63,
`strconv.ParseInt(s, 0, 64)` returns the number the numeral denotes. -/
theorem ParseInt_decimal (s : String) (hn : isNumeric s) (hz : noLeadingZero s)
    (hb : decimalValue s < 2 ^ 63) : ParseInt s 0 64 = .ok (decimalValue s : Int) := by
  obtain ⟨l⟩ := s
  unfold isNumeric at hn
  unfold noLeadingZero at hz
  unfold decimalValue at hb ⊢
  simp only at hn hz hb ⊢
  cases l with
  | nil => exact absurd rfl hn.1
  | cons c0 rest =>
    have hc := hn.2 c0 (List.mem_cons_self _ _)
    unfold isDecimalDigit at hc
    have e0 : '0'.toNat = 48 := rfl
    have e9 : '9'.toNat = 57 := rfl
    rw [e0, e9] at hc
    have hplus : c0 ≠ '+' := by
      intro e
      rw [e] at hc
      have : '+'.toNat = 43 := rfl
      omega
    have hminus : c0 ≠ '-' := by
      intro e
      rw [e] at hc
      have : '-'.toNat = 45 := rfl
      omega
    by_cases h0 : c0 = '0'
    · have hr : rest = [] := by
        rcases hz with hz | hz
        · simp [h0] at hz
        · simp at hz
          exact hz.2
      subst h0
      subst hr
      decide
    · have hu := ParseUint_decimal c0 rest h0 hn.2 hb
      unfold ParseInt
      simp only [hplus, hminus, or_self, if_false, hu]
      simp only [List.foldl_cons] at hb
      simp [hminus]
      norm_num at hb
      exact hb

/-! ## The port of a parsed URL -/

theorem validOptionalPort_tail (l : List Char) (h : validOptionalPort l = true) :
    ∀ c ∈ l.tail, isDecimalDigit c := by
  cases l with
  | nil => simp
  | cons c rest =>
    simp only [validOptionalPort] at h
    by_cases hc : c ≠ ':'
    · simp [hc] at h
    · simp only [hc, if_false] at h
      intro b hb
      have := (List.all_eq_true.mp h) b hb
      simpa [isDecimalDigit] using this

/-- `Port` returns decimal digits only. -/
theorem Port_digits (u : URL) : ∀ c ∈ u.Port.data, isDecimalDigit c := by
  unfold URL.Port splitHostPort
  simp only
  split
  · rename_i colon _
    split
    · rename_i hv
      have := validOptionalPort_tail _ hv
      simpa [List.tail_drop] using this
    · simp
  · simp

theorem portAttr_explicit (u : URL) (a : GoMap Object) (p : Int) (hport : u.Port ≠ "")
    (hp : ParseInt u.Port 0 64 = .ok p) :
    portAttr u a = .ok (a.set "@port" (.IntegerObject p)) := by
  have hl : ¬ u.Port.length = 0 := fun h => hport ((length_eq_zero_iff _).mp h)
  simp only [portAttr, hl, if_false, hp, int]

theorem portAttr_explicit_error (u : URL) (a : GoMap Object) (e : NumError) (hport : u.Port ≠ "")
    (hp : ParseInt u.Port 0 64 = .error e) :
    portAttr u a = .error (.raised e.Error) := by
  have hl : ¬ u.Port.length = 0 := fun h => hport ((length_eq_zero_iff _).mp h)
  simp only [portAttr, hl, if_false, hp, returnError]

theorem isNumeric_ne_empty (s : String) (h : isNumeric s) : s ≠ "" := by
  intro e
  rw [e] at h
  exact h.1 rfl

/-- C3: the code at the failing inputs. The port "010" is numeric and
denotes 10 in decimal, yet `parse` returns an instance with port 8, because
`strconv.ParseInt` is called with base 0 and reads a leading zero as the
octal mark; for the same reason the numeric port "08", which denotes 8,
yields no instance but a syntax error. -/
theorem parse_port_leading_zero :
    (sampleParse "http://example.com:010/" =
        .ok (mkURL "http" "example.com:010" "/" "" none) ∧
      (mkURL "http" "example.com:010" "/" "" none).Port = "010" ∧
      isNumeric "010" ∧ decimalValue "010" = 10 ∧
      parse sampleParse (initializeURIClass emptyVM) [.StringObject "http://example.com:010/"] =
        .ok exampleHTTP010 ∧
      ivar exampleHTTP010 "@port" = some (.IntegerObject 8)) ∧
    (sampleParse "http://example.com:08/" = .ok (mkURL "http" "example.com:08" "/" "" none) ∧
      (mkURL "http" "example.com:08" "/" "" none).Port = "08" ∧
      isNumeric "08" ∧ decimalValue "08" = 8 ∧
      parse sampleParse (initializeURIClass emptyVM) [.StringObject "http://example.com:08/"] =
        .error (.raised "strconv.ParseInt: parsing \"08\": invalid syntax")) := by
  decide

/-- Where the decimal reading of the port does hold: when the explicit port
is a decimal numeral without a leading zero that denotes a value below 2^63,
`parse` returns an instance whose port is exactly the integer the numeral
denotes, whatever the scheme. -/
theorem parse_port_explicit (urlParse : String → Except String URL) (vm : VM) (uri : String)
    (u : URL) (hp : urlParse uri = .ok u) (hnum : isNumeric u.Port)
    (hz : noLeadingZero u.Port) (hb : decimalValue u.Port < 2 ^ 63) :
    ∃ i, parse urlParse (initializeURIClass vm) [.StringObject uri] = .ok i ∧
      ivar i "@port" = some (.IntegerObject (decimalValue u.Port)) := by
  have hP := ParseInt_decimal u.Port hnum hz hb
  have ha := portAttr_explicit u (baseAttrs u) _ (isNumeric_ne_empty _ hnum) hP
  obtain ⟨i, hi⟩ := parse_ok_of urlParse vm uri u _ hp ha
  refine ⟨i, hi, ?_⟩
  obtain ⟨a, ha', _, hk⟩ := parse_ok_inv urlParse vm uri u i hp hi
  rw [ha] at ha'
  cases ha'
  rw [hk, userAttrs_get_other _ _ _ (by decide) (by decide),
    queryAttr_get_other _ _ _ (by decide), pathAttr_get_other _ _ _ (by decide),
    GoMap.get_set_same]

/-- C4: when the URL parser reports an error, `parse` raises an error whose
message is the parser's message unchanged, and returns no instance. -/
theorem parse_syntax_error (urlParse : String → Except String URL) (vm : VM) (uri msg : String)
    (herr : urlParse uri = .error msg) :
    parse urlParse (initializeURIClass vm) [.StringObject uri] = .error (.raised msg) ∧
    ∀ i, parse urlParse (initializeURIClass vm) [.StringObject uri] ≠ .ok i := by
  have h : parse urlParse (initializeURIClass vm) [.StringObject uri] = .error (.raised msg) := by
    rw [parse_initialized, herr]
  refine ⟨h, fun i hi => ?_⟩
  rw [h] at hi
  cases hi

theorem parse_syntax_error_witness :
    sampleParse "http://example.com:abc" =
      .error "parse \"http://example.com:abc\": invalid port \":abc\" after host" ∧
    parse sampleParse (initializeURIClass emptyVM) [.StringObject "http://example.com:abc"] =
      .error (.raised "parse \"http://example.com:abc\": invalid port \":abc\" after host") ∧
    ∀ i, parse sampleParse (initializeURIClass emptyVM)
      [.StringObject "http://example.com:abc"] ≠ .ok i :=
  ⟨by decide,
    parse_syntax_error sampleParse emptyVM "http://example.com:abc"
      "parse \"http://example.com:abc\": invalid port \":abc\" after host" (by decide)⟩

/-- C6 (as stated, refuted): the URL parser succeeds and the port is numeric,
yet `parse` raises an error and returns no instance: the ports
"9223372036854775808" and "99999999999999999999" do not fit the 64-bit
integer `strconv.ParseInt` is asked for. -/
theorem parse_no_other_error_counterexample :
    (sampleParse "http://example.com:9223372036854775808/" =
        .ok (mkURL "http" "example.com:9223372036854775808" "/" "" none) ∧
      isNumeric (mkURL "http" "example.com:9223372036854775808" "/" "" none).Port ∧
      parse sampleParse (initializeURIClass emptyVM)
          [.StringObject "http://example.com:9223372036854775808/"] =
        .error (.raised
          "strconv.ParseInt: parsing \"9223372036854775808\": value out of range")) ∧
    (sampleParse "http://example.com:99999999999999999999/" =
        .ok (mkURL "http" "example.com:99999999999999999999" "/" "" none) ∧
      isNumeric (mkURL "http" "example.com:99999999999999999999" "/" "" none).Port ∧
      parse sampleParse (initializeURIClass emptyVM)
          [.StringObject "http://example.com:99999999999999999999/"] =
        .error (.raised
          "strconv.ParseInt: parsing \"99999999999999999999\": value out of range")) := by
  decide

/-- C6 (amended): when the URL parser succeeds and the port is either empty
or a decimal numeral without a leading zero that denotes a value below 2^63,
`parse` raises no error and returns an instance, whatever the scheme, the
path, the query and the user-info are. -/
theorem parse_no_other_error (urlParse : String → Except String URL) (vm : VM) (uri : String)
    (u : URL) (hp : urlParse uri = .ok u)
    (hport : u.Port = "" ∨
      (isNumeric u.Port ∧ noLeadingZero u.Port ∧ decimalValue u.Port < 2 ^ 63)) :
    ∃ i, parse urlParse (initializeURIClass vm) [.StringObject uri] = .ok i := by
  rcases hport with h0 | ⟨hnum, hz, hb⟩
  · have hl : u.Port.length = 0 := (length_eq_zero_iff _).mpr h0
    have ha : ∃ a, portAttr u (baseAttrs u) = .ok a := by
      simp only [portAttr, hl, if_true]
      split
      · exact ⟨_, rfl⟩
      · split
        · exact ⟨_, rfl⟩
        · exact ⟨_, rfl⟩
    obtain ⟨a, ha⟩ := ha
    exact parse_ok_of urlParse vm uri u a hp ha
  · have hP := ParseInt_decimal u.Port hnum hz hb
    exact parse_ok_of urlParse vm uri u _ hp
      (portAttr_explicit u (baseAttrs u) _ (isNumeric_ne_empty _ hnum) hP)

theorem parse_no_other_error_witness :
    sampleParse "ftp://example.com" = .ok (mkURL "ftp" "example.com" "" "" none) ∧
    ((mkURL "ftp" "example.com" "" "" none).Port = "" ∨
      (isNumeric (mkURL "ftp" "example.com" "" "" none).Port ∧
        noLeadingZero (mkURL "ftp" "example.com" "" "" none).Port ∧
        decimalValue (mkURL "ftp" "example.com" "" "" none).Port < 2 ^ 63)) ∧
    ∃ i, parse sampleParse (initializeURIClass emptyVM) [.StringObject "ftp://example.com"] =
      .ok i :=
  ⟨by decide, Or.inl (by decide),
    parse_no_other_error sampleParse emptyVM "ftp://example.com"
      (mkURL "ftp" "example.com" "" "" none) (by decide) (Or.inl (by decide))⟩

/-- C7: on a successful parse, user is the username when user-info is present
with a non-empty username and is absent (NULL) otherwise; password is the
password string when user-info is present with a password set, the empty
password included, and is absent (NULL) otherwise. -/
theorem parse_user_password (urlParse : String → Except String URL) (vm : VM) (uri : String)
    (u : URL) (i : RObject) (hp : urlParse uri = .ok u)
    (h : parse urlParse (initializeURIClass vm) [.StringObject uri] = .ok i) :
    (∀ ui, u.User = some ui → ui.Username ≠ "" →
      ivar i "@user" = some (.StringObject ui.Username)) ∧
    ((u.User = none ∨ ∃ ui, u.User = some ui ∧ ui.Username = "") →
      ivar i "@user" = some .NULL) ∧
    (∀ ui, u.User = some ui → ui.Password.2 = true →
      ivar i "@password" = some (.StringObject ui.Password.1)) ∧
    ((u.User = none ∨ ∃ ui, u.User = some ui ∧ ui.Password.2 = false) →
      ivar i "@password" = some .NULL) := by
  obtain ⟨a, ha, _, hi⟩ := parse_ok_inv urlParse vm uri u i hp h
  have hbase : ∀ k, "@port" ≠ k → "@path" ≠ k → "@query" ≠ k →
      (queryAttr u (pathAttr u a)).get k = (baseAttrs u).get k := by
    intro k h1 h2 h3
    rw [queryAttr_get_other _ _ _ h3, pathAttr_get_other _ _ _ h2,
      portAttr_get_other u _ a k h1 ha]
  have hu0 := hbase "@user" (by decide) (by decide) (by decide)
  have hp0 := hbase "@password" (by decide) (by decide) (by decide)
  rw [(baseAttrs_get u).1] at hu0
  rw [(baseAttrs_get u).2.1] at hp0
  refine ⟨fun ui hui hne => ?_, fun hno => ?_, fun ui hui hset => ?_, fun hno => ?_⟩
  · have hl : ¬ ui.Username.length = 0 := fun e => hne ((length_eq_zero_iff _).mp e)
    rw [hi]
    simp only [userAttrs, hui, ne_eq, hl, not_false_eq_true, if_true]
    split
    · rw [GoMap.get_set_other _ _ _ _ (by decide), GoMap.get_set_same]
    · rw [GoMap.get_set_same]
  · rw [hi]
    rcases hno with hnone | ⟨ui, hui, hemp⟩
    · simp only [userAttrs, hnone, hu0]
    · have hl : ui.Username.length = 0 := (length_eq_zero_iff _).mpr hemp
      simp only [userAttrs, hui, ne_eq, hl, not_true_eq_false, if_false]
      split
      · rw [GoMap.get_set_other _ _ _ _ (by decide), hu0]
      · exact hu0
  · rw [hi]
    simp only [userAttrs, hui, hset, if_true]
    rw [GoMap.get_set_same]
  · rw [hi]
    rcases hno with hnone | ⟨ui, hui, hset⟩
    · simp only [userAttrs, hnone, hp0]
    · simp only [userAttrs, hui, hset, Bool.false_eq_true, if_false]
      split
      · rw [GoMap.get_set_other _ _ _ _ (by decide), hp0]
      · exact hp0

theorem parse_user_password_witness :
    sampleParse "http://user:@example.com" =
      .ok (mkURL "http" "example.com" "" "" (some ⟨"user", "", true⟩)) ∧
    parse sampleParse (initializeURIClass emptyVM) [.StringObject "http://user:@example.com"] =
      .ok exampleUser ∧
    ivar exampleUser "@user" = some (.StringObject "user") ∧
    ivar exampleUser "@password" = some (.StringObject "") :=
  have h := parse_user_password sampleParse emptyVM "http://user:@example.com"
    (mkURL "http" "example.com" "" "" (some ⟨"user", "", true⟩)) exampleUser
    (by decide) (by decide)
  ⟨by decide, by decide, h.1 ⟨"user", "", true⟩ rfl (by decide),
    h.2.2.1 ⟨"user", "", true⟩ rfl rfl⟩

/-- C10: on a successful parse, the path is "/" when the parsed path is
empty and the parsed path itself otherwise. -/
theorem parse_path (urlParse : String → Except String URL) (vm : VM) (uri : String)
    (u : URL) (i : RObject) (hp : urlParse uri = .ok u)
    (h : parse urlParse (initializeURIClass vm) [.StringObject uri] = .ok i) :
    (u.Path = "" → ivar i "@path" = some (.StringObject "/")) ∧
    (u.Path ≠ "" → ivar i "@path" = some (.StringObject u.Path)) := by
  obtain ⟨a, ha, _, hi⟩ := parse_ok_inv urlParse vm uri u i hp h
  have hk : ivar i "@path" = (pathAttr u a).get "@path" := by
    rw [hi, userAttrs_get_other _ _ _ (by decide) (by decide),
      queryAttr_get_other _ _ _ (by decide)]
  have ha0 : a.get "@path" = some (.StringObject "/") := by
    rw [portAttr_get_other u _ a "@path" (by decide) ha]
    exact (baseAttrs_get u).2.2.2.1
  refine ⟨fun he => ?_, fun hne => ?_⟩
  · have hl : u.Path.length = 0 := (length_eq_zero_iff _).mpr he
    rw [hk]
    simp only [pathAttr, ne_eq, hl, not_true_eq_false, if_false, ha0]
  · have hl : ¬ u.Path.length = 0 := fun e => hne ((length_eq_zero_iff _).mp e)
    rw [hk]
    simp only [pathAttr, ne_eq, hl, not_false_eq_true, if_true, GoMap.get_set_same]

theorem parse_path_witness :
    sampleParse "https://example.com" = .ok (mkURL "https" "example.com" "" "" none) ∧
    parse sampleParse (initializeURIClass emptyVM) [.StringObject "https://example.com"] =
      .ok exampleHTTPS ∧
    ((mkURL "https" "example.com" "" "" none).Path = "" →
      ivar exampleHTTPS "@path" = some (.StringObject "/")) ∧
    ((mkURL "https" "example.com" "" "" none).Path ≠ "" →
      ivar exampleHTTPS "@path" =
        some (.StringObject (mkURL "https" "example.com" "" "" none).Path)) :=
  ⟨by decide, by decide,
    parse_path sampleParse emptyVM "https://example.com"
      (mkURL "https" "example.com" "" "" none) exampleHTTPS (by decide) (by decide)⟩

/-! ## The keys of the attribute map -/

theorem GoMap.keys_set_of_mem {V : Type} (m : GoMap V) (k : String) (v : V) (h : k ∈ m.keys) :
    (m.set k v).keys = m.keys := by
  rw [GoMap.keys_set]
  simp [h]

theorem portAttr_mem_keys (u : URL) (a a' : GoMap Object) (k : String)
    (h : portAttr u a = .ok a') :
    k ∈ a'.keys ↔
      (k ∈ a.keys ∨ (k = "@port" ∧ (u.Port ≠ "" ∨ u.Scheme = "http" ∨ u.Scheme = "https"))) := by
  unfold portAttr at h
  split at h
  · rename_i hl
    have he : u.Port = "" := (length_eq_zero_iff _).mp hl
    split at h
    · rename_i hs
      cases h
      rw [GoMap.mem_keys_set]
      simp only [he, hs, ne_eq, not_true_eq_false, true_or, or_true, and_true]
      tauto
    · split at h
      · rename_i hs
        cases h
        rw [GoMap.mem_keys_set]
        simp only [he, hs, ne_eq, not_true_eq_false, true_or, or_true, and_true]
        tauto
      · rename_i h1 h2
        cases h
        simp only [he, h1, h2, ne_eq, not_true_eq_false, or_self, and_false, or_false]
  · rename_i hl
    have he : u.Port ≠ "" := fun e => hl ((length_eq_zero_iff _).mpr e)
    split at h
    · simp [returnError] at h
    · cases h
      rw [GoMap.mem_keys_set]
      simp only [ne_eq, he, not_false_eq_true, true_or, and_true]
      tauto

theorem pathAttr_keys (u : URL) (a : GoMap Object) (h : "@path" ∈ a.keys) :
    (pathAttr u a).keys = a.keys := by
  unfold pathAttr
  split
  · exact GoMap.keys_set_of_mem _ _ _ h
  · rfl

theorem queryAttr_keys (u : URL) (a : GoMap Object) (h : "@query" ∈ a.keys) :
    (queryAttr u a).keys = a.keys := by
  unfold queryAttr
  split
  · exact GoMap.keys_set_of_mem _ _ _ h
  · rfl

theorem userAttrs_keys (u : URL) (a : GoMap Object) (hu : "@user" ∈ a.keys)
    (hp : "@password" ∈ a.keys) : (userAttrs u a).keys = a.keys := by
  unfold userAttrs
  split
  · rfl
  · have h1 := GoMap.keys_set_of_mem a "@user"
    split <;> split
    · rw [GoMap.keys_set_of_mem _ _ _ (by rw [h1 _ hu]; exact hp), h1 _ hu]
    · exact h1 _ hu
    · exact GoMap.keys_set_of_mem _ _ _ hp
    · rfl

/-- The keys of the map `parse` builds: the six keys of lines 56 to 67, and
the port key when a port was assigned. -/
theorem uriAttrs_mem_keys (u : URL) (attrs : GoMap Object) (k : String)
    (h : uriAttrs u = .ok attrs) :
    k ∈ attrs.keys ↔
      (k ∈ ["@user", "@password", "@query", "@path", "@scheme", "@host"] ∨
        (k = "@port" ∧ (u.Port ≠ "" ∨ u.Scheme = "http" ∨ u.Scheme = "https"))) := by
  unfold uriAttrs at h
  split at h
  · cases h
  · rename_i a ha
    cases h
    have hm := fun k => portAttr_mem_keys u _ a k ha
    have hb : ∀ k, k ∈ ["@user", "@password", "@query", "@path", "@scheme", "@host"] →
        k ∈ a.keys := by
      intro k hk
      rw [hm, baseAttrs_keys]
      exact Or.inl hk
    have h1 := pathAttr_keys u a (hb _ (by decide))
    have h2 := queryAttr_keys u (pathAttr u a) (by rw [h1]; exact hb _ (by decide))
    have h3 := userAttrs_keys u (queryAttr u (pathAttr u a))
      (by rw [h2, h1]; exact hb _ (by decide)) (by rw [h2, h1]; exact hb _ (by decide))
    rw [h3, h2, h1, hm, baseAttrs_keys]

theorem uriAttrs_get_port (u : URL) (attrs : GoMap Object) (h : uriAttrs u = .ok attrs) :
    ((u.Port ≠ "" ∨ u.Scheme = "http" ∨ u.Scheme = "https") →
      ∃ n, attrs.get "@port" = some (.IntegerObject n)) ∧
    (¬ (u.Port ≠ "" ∨ u.Scheme = "http" ∨ u.Scheme = "https") →
      attrs.get "@port" = none) := by
  constructor
  · intro hc
    unfold uriAttrs at h
    split at h
    · cases h
    · rename_i a ha
      cases h
      rw [userAttrs_get_other _ _ _ (by decide) (by decide),
        queryAttr_get_other _ _ _ (by decide), pathAttr_get_other _ _ _ (by decide)]
      unfold portAttr at ha
      split at ha
      · rename_i hl
        have he : u.Port = "" := (length_eq_zero_iff _).mp hl
        split at ha
        · cases ha; exact ⟨80, GoMap.get_set_same _ _ _⟩
        · split at ha
          · cases ha; exact ⟨443, GoMap.get_set_same _ _ _⟩
          · rename_i h1 h2
            exact absurd hc (by simp [he, h1, h2])
      · split at ha
        · simp [returnError] at ha
        · cases ha; exact ⟨_, GoMap.get_set_same _ _ _⟩
  · intro hc
    apply GoMap.get_eq_none_of_not_mem_keys
    rw [uriAttrs_mem_keys u attrs _ h]
    simp only [hc, and_false, or_false]
    decide

/-- C8 (as stated, refuted): for the scheme "ftp" without an explicit port
the attribute map has six entries and no port key, and the instance has no
port instance variable. -/
theorem parse_attr_keys_counterexample :
    sampleParse "ftp://example.com" = .ok (mkURL "ftp" "example.com" "" "" none) ∧
    uriAttrs (mkURL "ftp" "example.com" "" "" none) =
      .ok [("@user", .NULL), ("@password", .NULL), ("@query", .NULL),
        ("@path", .StringObject "/"), ("@scheme", .StringObject "ftp"),
        ("@host", .StringObject "example.com")] ∧
    "@port" ∉ GoMap.keys [("@user", Object.NULL), ("@password", .NULL), ("@query", .NULL),
        ("@path", .StringObject "/"), ("@scheme", .StringObject "ftp"),
        ("@host", .StringObject "example.com")] ∧
    parse sampleParse (initializeURIClass emptyVM) [.StringObject "ftp://example.com"] =
      .ok exampleFTP ∧
    ivar exampleFTP "@port" = none := by
  decide

/-! ## The host of a parsed URL -/

theorem lastIndexByte_split (l : List Char) (c : Char) (i : Nat)
    (h : lastIndexByte l c = some i) : l = l.take i ++ c :: l.drop (i + 1) := by
  induction l generalizing i with
  | nil => simp [lastIndexByte] at h
  | cons x xs ih =>
    unfold lastIndexByte at h
    split at h
    · rename_i j hj
      cases h
      have := ih j hj
      simp only [List.take_succ_cons, List.drop_succ_cons, List.cons_append]
      rw [← this]
    · split at h
      · rename_i hx
        cases h
        simp [hx]
      · cases h

/-- When `Port` is not empty, `Host` is some text, a colon and the port. -/
theorem Host_ends_with_Port (u : URL) (h : u.Port ≠ "") :
    ∃ pre : String, u.Host = pre ++ ":" ++ u.Port := by
  unfold URL.Port splitHostPort at h ⊢
  simp only at h ⊢
  split at h
  · rename_i colon hcolon
    split at h
    · have hs := lastIndexByte_split _ _ _ hcolon
      refine ⟨⟨u.Host.data.take colon⟩, ?_⟩
      apply String.ext
      simp only [String.data_append]
      rw [if_pos (by assumption)]
      simp only [List.append_assoc, List.singleton_append]
      exact hs
    · exact absurd rfl h
  · exact absurd rfl h

theorem ivar_assignAll (c : Nat) (attrs : GoMap Object) (hnd : attrs.keys.Nodup) (k : String) :
    ivar (assignAll (initializeInstance c) attrs) k = attrs.get k := by
  unfold ivar
  rw [assignAll_get _ hnd]
  cases attrs.get k <;> simp [initializeInstance, GoMap.get]

/-- C9: the code at the failing input. For "http://example.com:8080/a/b?x=1"
the parsed host name is "example.com" and the parsed port "8080", yet line 67
stores the whole `u.Host`: the host attribute of the returned instance is
"example.com:8080", with the port suffix that lines 70 and 78 take out with
`u.Port()`, not the host name "example.com". The other attributes are as
claimed: class HTTP, scheme "http", port 8080, path "/a/b", query "x=1". -/
theorem parse_host_keeps_port :
    sampleParse "http://example.com:8080/a/b?x=1" =
      .ok (mkURL "http" "example.com:8080" "/a/b" "x=1" none) ∧
    (mkURL "http" "example.com:8080" "/a/b" "x=1" none).Port = "8080" ∧
    (mkURL "http" "example.com:8080" "/a/b" "x=1" none).Hostname = "example.com" ∧
    parse sampleParse (initializeURIClass emptyVM)
        [.StringObject "http://example.com:8080/a/b?x=1"] = .ok exampleHTTP8080 ∧
    ivar exampleHTTP8080 "@host" = some (.StringObject "example.com:8080") ∧
    ivar exampleHTTP8080 "@host" ≠ some (.StringObject "example.com") ∧
    className (initializeURIClass emptyVM) exampleHTTP8080 = some "HTTP" ∧
    ivar exampleHTTP8080 "@scheme" = some (.StringObject "http") ∧
    ivar exampleHTTP8080 "@port" = some (.IntegerObject 8080) ∧
    ivar exampleHTTP8080 "@path" = some (.StringObject "/a/b") ∧
    ivar exampleHTTP8080 "@query" = some (.StringObject "x=1") := by
  decide

/-- How far the stored host goes wrong: on every successful parse the host
attribute is the `Host` of the parsed URL as it is, and with an explicit port
that text ends in a colon and the port; so the port suffix is in the host
attribute of every instance with an explicit port, as it is for
"http://example.com:8080/a/b?x=1". -/
theorem parse_host (urlParse : String → Except String URL) (vm : VM) :
    (urlParse "http://example.com:8080/a/b?x=1" =
        .ok (mkURL "http" "example.com:8080" "/a/b" "x=1" none) →
      ∃ i, parse urlParse (initializeURIClass vm)
          [.StringObject "http://example.com:8080/a/b?x=1"] = .ok i ∧
        className (initializeURIClass vm) i = some "HTTP" ∧
        ivar i "@scheme" = some (.StringObject "http") ∧
        ivar i "@host" = some (.StringObject "example.com:8080") ∧
        ivar i "@port" = some (.IntegerObject 8080) ∧
        ivar i "@path" = some (.StringObject "/a/b") ∧
        ivar i "@query" = some (.StringObject "x=1")) ∧
    (∀ (uri : String) (u : URL) (i : RObject), urlParse uri = .ok u →
      parse urlParse (initializeURIClass vm) [.StringObject uri] = .ok i →
      ivar i "@host" = some (.StringObject u.Host) ∧
      (u.Port ≠ "" → ∃ pre : String, u.Host = pre ++ ":" ++ u.Port)) := by
  constructor
  · intro hp
    have hu : uriAttrs (mkURL "http" "example.com:8080" "/a/b" "x=1" none) =
        .ok exampleHTTP8080.InstanceVariables := by decide
    have hnd : (GoMap.keys exampleHTTP8080.InstanceVariables).Nodup := by decide
    refine ⟨assignAll (initializeInstance (vm.heap.length + 1))
      exampleHTTP8080.InstanceVariables, ?_, ?_, ?_, ?_, ?_, ?_, ?_⟩
    · rw [parse_initialized, hp]
      simp only [hu]
      rfl
    · have := className_initialized vm (assignAll (initializeInstance (vm.heap.length + 1))
        exampleHTTP8080.InstanceVariables) "http" (by rw [assignAll_Class]; rfl)
      rw [this]
      rfl
    all_goals
      rw [ivar_assignAll _ _ hnd]
      rfl
  · intro uri u i hp h
    obtain ⟨a, ha, _, hi⟩ := parse_ok_inv urlParse vm uri u i hp h
    refine ⟨?_, Host_ends_with_Port u⟩
    rw [hi, userAttrs_get_other _ _ _ (by decide) (by decide),
      queryAttr_get_other _ _ _ (by decide), pathAttr_get_other _ _ _ (by decide),
      portAttr_get_other u _ a "@host" (by decide) ha]
    exact (baseAttrs_get u).2.2.2.2.2.1

theorem parse_host_witness :
    sampleParse "http://example.com:8080/a/b?x=1" =
      .ok (mkURL "http" "example.com:8080" "/a/b" "x=1" none) ∧
    parse sampleParse (initializeURIClass emptyVM)
      [.StringObject "http://example.com:8080/a/b?x=1"] = .ok exampleHTTP8080 ∧
    (∃ i, parse sampleParse (initializeURIClass emptyVM)
        [.StringObject "http://example.com:8080/a/b?x=1"] = .ok i ∧
      className (initializeURIClass emptyVM) i = some "HTTP" ∧
      ivar i "@scheme" = some (.StringObject "http") ∧
      ivar i "@host" = some (.StringObject "example.com:8080") ∧
      ivar i "@port" = some (.IntegerObject 8080) ∧
      ivar i "@path" = some (.StringObject "/a/b") ∧
      ivar i "@query" = some (.StringObject "x=1")) ∧
    (ivar exampleHTTP8080 "@host" =
        some (.StringObject (mkURL "http" "example.com:8080" "/a/b" "x=1" none).Host) ∧
      ((mkURL "http" "example.com:8080" "/a/b" "x=1" none).Port ≠ "" →
        ∃ pre : String, (mkURL "http" "example.com:8080" "/a/b" "x=1" none).Host =
          pre ++ ":" ++ (mkURL "http" "example.com:8080" "/a/b" "x=1" none).Port)) :=
  ⟨by decide, by decide,
    (parse_host sampleParse emptyVM).1 (by decide),
    (parse_host sampleParse emptyVM).2 "http://example.com:8080/a/b?x=1"
      (mkURL "http" "example.com:8080" "/a/b" "x=1" none) exampleHTTP8080
      (by decide) (by decide)⟩

/-! ## Query, scheme and host -/

/-- C11: on a successful parse, the query is absent (NULL) when the raw query
of the parsed URL is empty and the raw query itself otherwise. -/
theorem parse_query (urlParse : String → Except String URL) (vm : VM) (uri : String)
    (u : URL) (i : RObject) (hp : urlParse uri = .ok u)
    (h : parse urlParse (initializeURIClass vm) [.StringObject uri] = .ok i) :
    (u.RawQuery = "" → ivar i "@query" = some .NULL) ∧
    (u.RawQuery ≠ "" → ivar i "@query" = some (.StringObject u.RawQuery)) := by
  obtain ⟨a, ha, _, hi⟩ := parse_ok_inv urlParse vm uri u i hp h
  have hk : ivar i "@query" = (queryAttr u (pathAttr u a)).get "@query" := by
    rw [hi, userAttrs_get_other _ _ _ (by decide) (by decide)]
  have ha0 : (pathAttr u a).get "@query" = some .NULL := by
    rw [pathAttr_get_other _ _ _ (by decide), portAttr_get_other u _ a "@query" (by decide) ha]
    exact (baseAttrs_get u).2.2.1
  refine ⟨fun he => ?_, fun hne => ?_⟩
  · have hl : u.RawQuery.length = 0 := (length_eq_zero_iff _).mpr he
    rw [hk]
    simp only [queryAttr, ne_eq, hl, not_true_eq_false, if_false, ha0]
  · have hl : ¬ u.RawQuery.length = 0 := fun e => hne ((length_eq_zero_iff _).mp e)
    rw [hk]
    simp only [queryAttr, ne_eq, hl, not_false_eq_true, if_true, GoMap.get_set_same]

theorem parse_query_witness :
    sampleParseMore "http://example.com/?x=1" =
      .ok (mkURL "http" "example.com" "/" "x=1" none) ∧
    parse sampleParseMore (initializeURIClass emptyVM)
      [.StringObject "http://example.com/?x=1"] = .ok exampleQuery ∧
    ((mkURL "http" "example.com" "/" "x=1" none).RawQuery = "" →
      ivar exampleQuery "@query" = some .NULL) ∧
    ((mkURL "http" "example.com" "/" "x=1" none).RawQuery ≠ "" →
      ivar exampleQuery "@query" =
        some (.StringObject (mkURL "http" "example.com" "/" "x=1" none).RawQuery)) :=
  ⟨by decide, by decide,
    parse_query sampleParseMore emptyVM "http://example.com/?x=1"
      (mkURL "http" "example.com" "/" "x=1" none) exampleQuery (by decide) (by decide)⟩

/-- What lines 63 to 67 store: the scheme attribute is the `Scheme` of the
parsed URL and the host attribute its `Host`, which is "host or host:port";
both are string values, never NULL and never unset, also when empty. -/
theorem parse_scheme_host (urlParse : String → Except String URL) (vm : VM) (uri : String)
    (u : URL) (i : RObject) (hp : urlParse uri = .ok u)
    (h : parse urlParse (initializeURIClass vm) [.StringObject uri] = .ok i) :
    ivar i "@scheme" = some (.StringObject u.Scheme) ∧
    ivar i "@host" = some (.StringObject u.Host) ∧
    ivar i "@scheme" ≠ some .NULL ∧ ivar i "@scheme" ≠ none ∧
    ivar i "@host" ≠ some .NULL ∧ ivar i "@host" ≠ none := by
  obtain ⟨a, ha, _, hi⟩ := parse_ok_inv urlParse vm uri u i hp h
  have hbase : ∀ k, "@user" ≠ k → "@password" ≠ k → "@port" ≠ k → "@path" ≠ k →
      "@query" ≠ k → ivar i k = (baseAttrs u).get k := by
    intro k h1 h2 h3 h4 h5
    rw [hi, userAttrs_get_other _ _ _ h1 h2, queryAttr_get_other _ _ _ h5,
      pathAttr_get_other _ _ _ h4, portAttr_get_other u _ a k h3 ha]
  have hs := hbase "@scheme" (by decide) (by decide) (by decide) (by decide) (by decide)
  have hh := hbase "@host" (by decide) (by decide) (by decide) (by decide) (by decide)
  rw [(baseAttrs_get u).2.2.2.2.1] at hs
  rw [(baseAttrs_get u).2.2.2.2.2.1] at hh
  rw [hs, hh]
  refine ⟨rfl, rfl, ?_, ?_, ?_, ?_⟩ <;> intro e <;> cases e

theorem parse_scheme_host_witness :
    sampleParseMore "/a/b" = .ok (mkURL "" "" "/a/b" "" none) ∧
    parse sampleParseMore (initializeURIClass emptyVM) [.StringObject "/a/b"] =
      .ok exampleRelative ∧
    ivar exampleRelative "@scheme" = some (.StringObject "") ∧
    ivar exampleRelative "@host" = some (.StringObject "") ∧
    ivar exampleRelative "@scheme" ≠ some .NULL ∧ ivar exampleRelative "@scheme" ≠ none ∧
    ivar exampleRelative "@host" ≠ some .NULL ∧ ivar exampleRelative "@host" ≠ none :=
  ⟨by decide, by decide,
    parse_scheme_host sampleParseMore emptyVM "/a/b" (mkURL "" "" "/a/b" "" none)
      exampleRelative (by decide) (by decide)⟩

/-! ## The example of the doc comment -/

/-- C12 (as stated, refuted): for "https://example.com" the port of the
returned instance is 443, not the 80 of the doc comment. -/
theorem parse_doc_example_counterexample :
    sampleParse "https://example.com" = .ok (mkURL "https" "example.com" "" "" none) ∧
    parse sampleParse (initializeURIClass emptyVM) [.StringObject "https://example.com"] =
      .ok exampleHTTPS ∧
    ivar exampleHTTPS "@port" = some (.IntegerObject 443) ∧
    ivar exampleHTTPS "@port" ≠ some (.IntegerObject 80) := by
  decide

/-- C12 (amended): for "https://example.com", which `url.Parse` turns into
scheme "https", host "example.com" and an empty path, `parse` returns an
instance whose scheme is "https", whose host is "example.com", whose port is
443 and whose path is "/". -/
theorem parse_doc_example (urlParse : String → Except String URL) (vm : VM)
    (hp : urlParse "https://example.com" = .ok (mkURL "https" "example.com" "" "" none)) :
    ∃ i, parse urlParse (initializeURIClass vm) [.StringObject "https://example.com"] = .ok i ∧
      ivar i "@scheme" = some (.StringObject "https") ∧
      ivar i "@host" = some (.StringObject "example.com") ∧
      ivar i "@port" = some (.IntegerObject 443) ∧
      ivar i "@path" = some (.StringObject "/") := by
  have hu : uriAttrs (mkURL "https" "example.com" "" "" none) =
      .ok exampleHTTPS.InstanceVariables := by decide
  have hnd : (GoMap.keys exampleHTTPS.InstanceVariables).Nodup := by decide
  refine ⟨assignAll (initializeInstance (vm.heap.length + 2)) exampleHTTPS.InstanceVariables,
    ?_, ?_, ?_, ?_, ?_⟩
  · rw [parse_initialized, hp]
    simp only [hu]
    rfl
  all_goals
    rw [ivar_assignAll _ _ hnd]
    rfl

theorem parse_doc_example_witness :
    sampleParse "https://example.com" = .ok (mkURL "https" "example.com" "" "" none) ∧
    ∃ i, parse sampleParse (initializeURIClass emptyVM) [.StringObject "https://example.com"] =
        .ok i ∧
      ivar i "@scheme" = some (.StringObject "https") ∧
      ivar i "@host" = some (.StringObject "example.com") ∧
      ivar i "@port" = some (.IntegerObject 443) ∧
      ivar i "@path" = some (.StringObject "/") :=
  ⟨by decide, parse_doc_example sampleParse emptyVM (by decide)⟩

/-! ## Registration -/

/-- C14: after `initializeURIClass`, the global constant "URI" points to the
namespace class, whose constant table holds exactly the two entries "HTTP"
and "HTTPS", pointing to the classes of these names; HTTPS has HTTP as its
superClass and as its pseudoSuperClass; HTTP holds a reader and a writer for
exactly the seven attributes host, path, port, query, scheme, user and
password, and HTTPS holds none. -/
theorem initializeURIClass_registers (vm : VM) :
    ∃ uriC httpC httpsC : RClass,
      (initializeURIClass vm).constants.get "URI" = some ⟨vm.heap.length⟩ ∧
      (initializeURIClass vm).heap.get? vm.heap.length = some uriC ∧
      (initializeURIClass vm).heap.get? (vm.heap.length + 1) = some httpC ∧
      (initializeURIClass vm).heap.get? (vm.heap.length + 2) = some httpsC ∧
      uriC.Name = "URI" ∧ httpC.Name = "HTTP" ∧ httpsC.Name = "HTTPS" ∧
      uriC.constants.length = 2 ∧
      uriC.constants.get "HTTP" = some ⟨vm.heap.length + 1⟩ ∧
      uriC.constants.get "HTTPS" = some ⟨vm.heap.length + 2⟩ ∧
      httpsC.superClass = some (vm.heap.length + 1) ∧
      httpsC.pseudoSuperClass = some (vm.heap.length + 1) ∧
      (∀ a, Method.attrReader a ∈ httpC.Methods ↔
        a ∈ ["host", "path", "port", "query", "scheme", "user", "password"]) ∧
      (∀ a, Method.attrWriter a ∈ httpC.Methods ↔
        a ∈ ["host", "path", "port", "query", "scheme", "user", "password"]) ∧
      (∀ a, Method.attrReader a ∉ httpsC.Methods ∧ Method.attrWriter a ∉ httpsC.Methods) := by
  have hh := initializeURIClass_heap vm
  have hd : (initializeURIClass vm).heap =
      vm.heap ++ (initializeURIClass vm).heap.drop vm.heap.length := by
    rw [hh, List.drop_left]
  have hdrop := hh
  rw [hd] at hdrop
  have hdrop' := List.append_cancel_left hdrop
  have g : ∀ k, (initializeURIClass vm).heap.get? (vm.heap.length + k) =
      ((initializeURIClass vm).heap.drop vm.heap.length).get? k := by
    intro k
    rw [List.get?_eq_getElem?, List.get?_eq_getElem?, List.getElem?_drop]
  have g0 := g 0
  have g1 := g 1
  have g2 := g 2
  rw [hdrop'] at g0 g1 g2
  simp only [Nat.add_zero, List.get?_eq_getElem?, List.getElem?_cons_zero,
    List.getElem?_cons_succ] at g0 g1 g2
  rw [← List.get?_eq_getElem?] at g0 g1 g2
  refine ⟨_, _, _, initializeURIClass_constants vm, g0, g1, g2, ?_⟩
  refine ⟨rfl, rfl, rfl, rfl, ?_, ?_, rfl, rfl, ?_, ?_, ?_⟩
  · simp [GoMap.get]
  · simp [GoMap.get]
  · intro a
    simp [RClass.setAttrWriter, RClass.setAttrReader, initializeClass]
  · intro a
    simp [RClass.setAttrWriter, RClass.setAttrReader, initializeClass]
  · intro a
    simp

/-! ## Invariants of the returned instance -/

theorem GoMap.mem_keys_of_get {V : Type} (m : GoMap V) (k : String) (v : V)
    (h : m.get k = some v) : k ∈ m.keys := by
  by_contra hn
  rw [GoMap.get_eq_none_of_not_mem_keys m k hn] at h
  cases h

theorem parse_ok_parsed (urlParse : String → Except String URL) (vm : VM) (uri : String)
    (i : RObject) (h : parse urlParse (initializeURIClass vm) [.StringObject uri] = .ok i) :
    ∃ u, urlParse uri = .ok u := by
  rw [parse_initialized] at h
  cases hp : urlParse uri with
  | error e => rw [hp] at h; cases h
  | ok u => exact ⟨u, rfl⟩

theorem pathAttr_get_path (u : URL) (a : GoMap Object)
    (h0 : a.get "@path" = some (.StringObject "/")) :
    ∃ s, s ≠ "" ∧ (pathAttr u a).get "@path" = some (.StringObject s) := by
  unfold pathAttr
  split
  · rename_i hl
    exact ⟨u.Path, fun e => hl ((length_eq_zero_iff _).mpr e), GoMap.get_set_same _ _ _⟩
  · exact ⟨"/", by decide, h0⟩

theorem queryAttr_get_query (u : URL) (a : GoMap Object) (h0 : a.get "@query" = some .NULL) :
    (queryAttr u a).get "@query" = some .NULL ∨
      ∃ s, s ≠ "" ∧ (queryAttr u a).get "@query" = some (.StringObject s) := by
  unfold queryAttr
  split
  · rename_i hl
    exact Or.inr ⟨u.RawQuery, fun e => hl ((length_eq_zero_iff _).mpr e),
      GoMap.get_set_same _ _ _⟩
  · exact Or.inl h0

theorem userAttrs_get_user (u : URL) (a : GoMap Object) (h0 : a.get "@user" = some .NULL) :
    (userAttrs u a).get "@user" = some .NULL ∨
      ∃ s, s ≠ "" ∧ (userAttrs u a).get "@user" = some (.StringObject s) := by
  unfold userAttrs
  split
  · exact Or.inl h0
  · rename_i ui _
    split
    · rename_i hl
      refine Or.inr ⟨ui.Username, fun e => hl ((length_eq_zero_iff _).mpr e), ?_⟩
      split
      · rw [GoMap.get_set_other _ _ _ _ (by decide), GoMap.get_set_same]
      · rw [GoMap.get_set_same]
    · refine Or.inl ?_
      split
      · rw [GoMap.get_set_other _ _ _ _ (by decide), h0]
      · exact h0

/-- C15: in every instance `parse` returns, user is absent (NULL) or a
non-empty string, query is absent (NULL) or a non-empty string, and path is
a non-empty string; an instance variable that holds the empty string is
password, scheme or host. -/
theorem parse_nonempty_strings (urlParse : String → Except String URL) (vm : VM) (uri : String)
    (i : RObject) (h : parse urlParse (initializeURIClass vm) [.StringObject uri] = .ok i) :
    (ivar i "@user" = some .NULL ∨ ∃ s, s ≠ "" ∧ ivar i "@user" = some (.StringObject s)) ∧
    (ivar i "@query" = some .NULL ∨ ∃ s, s ≠ "" ∧ ivar i "@query" = some (.StringObject s)) ∧
    (∃ s, s ≠ "" ∧ ivar i "@path" = some (.StringObject s)) ∧
    (∀ k, ivar i k = some (.StringObject "") →
      k = "@password" ∨ k = "@scheme" ∨ k = "@host") := by
  obtain ⟨u, hp⟩ := parse_ok_parsed urlParse vm uri i h
  obtain ⟨a, ha, _, hi⟩ := parse_ok_inv urlParse vm uri u i hp h
  have hu : uriAttrs u = .ok (userAttrs u (queryAttr u (pathAttr u a))) := by
    simp only [uriAttrs, ha]
  have hb := baseAttrs_get u
  have huser : ivar i "@user" = some .NULL ∨
      ∃ s, s ≠ "" ∧ ivar i "@user" = some (.StringObject s) := by
    rw [hi]
    apply userAttrs_get_user
    rw [queryAttr_get_other _ _ _ (by decide), pathAttr_get_other _ _ _ (by decide),
      portAttr_get_other u _ a "@user" (by decide) ha]
    exact hb.1
  have hquery : ivar i "@query" = some .NULL ∨
      ∃ s, s ≠ "" ∧ ivar i "@query" = some (.StringObject s) := by
    rw [hi, userAttrs_get_other _ _ _ (by decide) (by decide)]
    apply queryAttr_get_query
    rw [pathAttr_get_other _ _ _ (by decide), portAttr_get_other u _ a "@query" (by decide) ha]
    exact hb.2.2.1
  have hpath : ∃ s, s ≠ "" ∧ ivar i "@path" = some (.StringObject s) := by
    rw [hi, userAttrs_get_other _ _ _ (by decide) (by decide),
      queryAttr_get_other _ _ _ (by decide)]
    apply pathAttr_get_path
    rw [portAttr_get_other u _ a "@path" (by decide) ha]
    exact hb.2.2.2.1
  refine ⟨huser, hquery, hpath, fun k hk => ?_⟩
  have hmem : k ∈ (userAttrs u (queryAttr u (pathAttr u a))).keys := by
    rw [hi] at hk
    exact GoMap.mem_keys_of_get _ _ _ hk
  rw [uriAttrs_mem_keys u _ k hu] at hmem
  rcases hmem with hsix | ⟨hport, hc⟩
  · simp only [List.mem_cons, List.mem_singleton, List.not_mem_nil, or_false] at hsix
    rcases hsix with e | e | e | e | e | e
    · subst e
      rcases huser with h1 | ⟨s, hs, h1⟩
      · rw [h1] at hk; cases hk
      · rw [h1] at hk
        cases hk
        exact absurd rfl hs
    · exact Or.inl e
    · subst e
      rcases hquery with h1 | ⟨s, hs, h1⟩
      · rw [h1] at hk; cases hk
      · rw [h1] at hk
        cases hk
        exact absurd rfl hs
    · subst e
      obtain ⟨s, hs, h1⟩ := hpath
      rw [h1] at hk
      cases hk
      exact absurd rfl hs
    · exact Or.inr (Or.inl e)
    · exact Or.inr (Or.inr e)
  · subst hport
    obtain ⟨n, hn⟩ := (uriAttrs_get_port u _ hu).1 hc
    rw [hi, hn] at hk
    cases hk

theorem parse_nonempty_strings_witness :
    parse sampleParseMore (initializeURIClass emptyVM) [.StringObject "/a/b"] =
      .ok exampleRelative ∧
    ivar exampleRelative "@scheme" = some (.StringObject "") ∧
    ivar exampleRelative "@host" = some (.StringObject "") ∧
    (ivar exampleRelative "@user" = some .NULL ∨
      ∃ s, s ≠ "" ∧ ivar exampleRelative "@user" = some (.StringObject s)) ∧
    (ivar exampleRelative "@query" = some .NULL ∨
      ∃ s, s ≠ "" ∧ ivar exampleRelative "@query" = some (.StringObject s)) ∧
    (∃ s, s ≠ "" ∧ ivar exampleRelative "@path" = some (.StringObject s)) ∧
    (∀ k, ivar exampleRelative k = some (.StringObject "") →
      k = "@password" ∨ k = "@scheme" ∨ k = "@host") :=
  ⟨by decide, by decide, by decide,
    parse_nonempty_strings sampleParseMore emptyVM "/a/b" exampleRelative (by decide)⟩

/-- C16: in every instance `parse` returns, an instance of class HTTPS has
an integer port, 443 when no explicit port was given; and an instance whose
port is absent (not set, or NULL) has class HTTP and a scheme that is
neither "http" nor "https". -/
theorem parse_class_port (urlParse : String → Except String URL) (vm : VM) (uri : String)
    (u : URL) (i : RObject) (hp : urlParse uri = .ok u)
    (h : parse urlParse (initializeURIClass vm) [.StringObject uri] = .ok i) :
    (className (initializeURIClass vm) i = some "HTTPS" →
      (∃ n, ivar i "@port" = some (.IntegerObject n)) ∧
      (u.Port = "" → ivar i "@port" = some (.IntegerObject 443))) ∧
    ((ivar i "@port" = none ∨ ivar i "@port" = some .NULL) →
      className (initializeURIClass vm) i = some "HTTP" ∧
      ivar i "@scheme" = some (.StringObject u.Scheme) ∧
      u.Scheme ≠ "http" ∧ u.Scheme ≠ "https") := by
  obtain ⟨a, ha, hc, hi⟩ := parse_ok_inv urlParse vm uri u i hp h
  have hu : uriAttrs u = .ok (userAttrs u (queryAttr u (pathAttr u a))) := by
    simp only [uriAttrs, ha]
  have hcls := className_initialized vm i u.Scheme hc
  have hport := uriAttrs_get_port u _ hu
  have hk : ivar i "@port" = a.get "@port" := by
    rw [hi, userAttrs_get_other _ _ _ (by decide) (by decide),
      queryAttr_get_other _ _ _ (by decide), pathAttr_get_other _ _ _ (by decide)]
  constructor
  · intro hhttps
    have hs : u.Scheme = "https" := by
      by_contra hne
      rw [hcls, if_neg hne] at hhttps
      simp at hhttps
    refine ⟨?_, fun he => ?_⟩
    · obtain ⟨n, hn⟩ := hport.1 (Or.inr (Or.inr hs))
      exact ⟨n, by rw [hi, hn]⟩
    · have hl : u.Port.length = 0 := (length_eq_zero_iff _).mpr he
      have hne : ¬ u.Scheme = "http" := by rw [hs]; decide
      simp only [portAttr, hl, if_true, hne, hs, if_false] at ha
      cases ha
      rw [hk, GoMap.get_set_same]
  · intro habs
    have hcond : ¬ (u.Port ≠ "" ∨ u.Scheme = "http" ∨ u.Scheme = "https") := by
      intro hc'
      obtain ⟨n, hn⟩ := hport.1 hc'
      rw [hi, hn] at habs
      rcases habs with e | e <;> cases e
    have h1 : u.Scheme ≠ "http" := fun e => hcond (Or.inr (Or.inl e))
    have h2 : u.Scheme ≠ "https" := fun e => hcond (Or.inr (Or.inr e))
    refine ⟨?_, ?_, h1, h2⟩
    · rw [hcls, if_neg h2]
    · rw [hi, userAttrs_get_other _ _ _ (by decide) (by decide),
        queryAttr_get_other _ _ _ (by decide), pathAttr_get_other _ _ _ (by decide),
        portAttr_get_other u _ a "@scheme" (by decide) ha]
      exact (baseAttrs_get u).2.2.2.2.1

theorem parse_class_port_witness :
    sampleParse "https://example.com" = .ok (mkURL "https" "example.com" "" "" none) ∧
    parse sampleParse (initializeURIClass emptyVM) [.StringObject "https://example.com"] =
      .ok exampleHTTPS ∧
    className (initializeURIClass emptyVM) exampleHTTPS = some "HTTPS" ∧
    (mkURL "https" "example.com" "" "" none).Port = "" ∧
    (∃ n, ivar exampleHTTPS "@port" = some (.IntegerObject n)) ∧
    ivar exampleHTTPS "@port" = some (.IntegerObject 443) ∧
    sampleParse "ftp://example.com" = .ok (mkURL "ftp" "example.com" "" "" none) ∧
    parse sampleParse (initializeURIClass emptyVM) [.StringObject "ftp://example.com"] =
      .ok exampleFTP ∧
    ivar exampleFTP "@port" = none ∧
    className (initializeURIClass emptyVM) exampleFTP = some "HTTP" ∧
    ivar exampleFTP "@scheme" = some (.StringObject "ftp") :=
  have h := (parse_class_port sampleParse emptyVM "https://example.com"
    (mkURL "https" "example.com" "" "" none) exampleHTTPS (by decide) (by decide)).1
    (by decide)
  have g := (parse_class_port sampleParse emptyVM "ftp://example.com"
    (mkURL "ftp" "example.com" "" "" none) exampleFTP (by decide) (by decide)).2
    (Or.inl (by decide))
  ⟨by decide, by decide, by decide, by decide, h.1, h.2 (by decide), by decide, by decide,
    by decide, g.1, g.2.1⟩

/-! ## The order of the assignment loop does not matter -/

theorem parse_eq_parseOrdered (urlParse : String → Except String URL) (vm : VM)
    (args : List Object) : parse urlParse vm args = parseOrdered id urlParse vm args := rfl

theorem GoMap.get_perm {V : Type} (l1 l2 : GoMap V) (hperm : l1.Perm l2)
    (hnd : l1.keys.Nodup) (k : String) : l1.get k = l2.get k := by
  induction hperm with
  | nil => rfl
  | cons x _ ih =>
    obtain ⟨kx, vx⟩ := x
    simp only [GoMap.keys, List.map_cons, List.nodup_cons] at hnd
    simp only [GoMap.get]
    rw [ih hnd.2]
  | swap x y l =>
    obtain ⟨kx, vx⟩ := x
    obtain ⟨ky, vy⟩ := y
    simp only [GoMap.keys, List.map_cons, List.nodup_cons, List.mem_cons, not_or] at hnd
    simp only [GoMap.get]
    by_cases h1 : ky = k
    · have h2 : ¬ kx = k := fun e => hnd.1.1 (h1.trans e.symm)
      simp [h1, h2]
    · simp [h1]
  | trans p12 _ ih1 ih2 =>
    have hk : (GoMap.keys _).Perm (GoMap.keys _) := List.Perm.map Prod.fst p12
    rw [ih1 hnd, ih2 ((List.Perm.nodup_iff hk).mp hnd)]

/-- Whatever the order, a call ends in the same failure, or its argument is
a string that the URL parser accepts and it returns the instance of one class
that the loop fills from the attribute map of the parsed URL. -/
theorem parseOrdered_cases (urlParse : String → Except String URL) (vm : VM)
    (args : List Object) :
    (∃ e, ∀ order, parseOrdered order urlParse vm args = .error e) ∨
    (∃ c uri rest u attrs, args = .StringObject uri :: rest ∧ urlParse uri = .ok u ∧
      uriAttrs u = .ok attrs ∧
      ∀ order, parseOrdered order urlParse vm args =
        .ok (assignAll (initializeInstance c) (order attrs))) := by
  cases args with
  | nil => exact Or.inl ⟨.goPanic, fun _ => rfl⟩
  | cons a rest =>
    cases a with
    | NULL => exact Or.inl ⟨.goPanic, fun _ => rfl⟩
    | IntegerObject n => exact Or.inl ⟨.goPanic, fun _ => rfl⟩
    | StringObject uri =>
      cases h1 : vm.constants.get "URI" with
      | none => exact Or.inl ⟨.goPanic, fun _ => by simp only [parseOrdered, h1]⟩
      | some uriPtr =>
        cases h2 : vm.heap.get? uriPtr.Target with
        | none => exact Or.inl ⟨.goPanic, fun _ => by simp only [parseOrdered, h1, h2]⟩
        | some uriModule =>
          cases h3 : urlParse uri with
          | error err =>
            exact Or.inl ⟨.raised err, fun _ => by
              simp only [parseOrdered, h1, h2, h3, returnError]⟩
          | ok u =>
            cases h4 : uriAttrs u with
            | error e =>
              exact Or.inl ⟨e, fun _ => by simp only [parseOrdered, h1, h2, h3, h4]⟩
            | ok attrs =>
              cases h5 : uriModule.constants.get
                  (if u.Scheme = "https" then "HTTPS" else "HTTP") with
              | none =>
                exact Or.inl ⟨.goPanic, fun _ => by
                  simp only [parseOrdered, h1, h2, h3, h4, h5]⟩
              | some cPtr =>
                cases h6 : vm.heap.get? cPtr.Target with
                | none =>
                  exact Or.inl ⟨.goPanic, fun _ => by
                    simp only [parseOrdered, h1, h2, h3, h4, h5, h6]⟩
                | some c =>
                  exact Or.inr ⟨cPtr.Target, uri, rest, u, attrs, rfl, h3, h4, fun _ => by
                    simp only [parseOrdered, h1, h2, h3, h4, h5, h6]⟩

theorem ivar_assignAll_perm (c : Nat) (attrs visited : GoMap Object)
    (hperm : visited.Perm attrs) (hnd : attrs.keys.Nodup) (k : String) :
    visited.keys.Nodup ∧ ivar (assignAll (initializeInstance c) visited) k = attrs.get k := by
  have hk : (GoMap.keys visited).Perm (GoMap.keys attrs) := List.Perm.map Prod.fst hperm
  have hv : visited.keys.Nodup := (List.Perm.nodup_iff hk).mpr hnd
  exact ⟨hv, by rw [ivar_assignAll c visited hv k, GoMap.get_perm visited attrs hperm hv k]⟩

/-- C17: the loop of lines 118 to 120 may visit the entries of the attribute
map in any order. For any two orders the call ends in the same failure or
returns instances of the same class with the same instance variables, which
are also those of `parse`. The map is the one lines 56 to 106 build from the
URL that the parser returns for the argument of the call: every key of it is
visited once and holds the value the map holds for it, and no other instance
variable is set. -/
theorem parseOrdered_order_irrelevant (o1 o2 : GoMap Object → GoMap Object)
    (h1 : ∀ m, (o1 m).Perm m) (h2 : ∀ m, (o2 m).Perm m)
    (urlParse : String → Except String URL) (vm : VM) (args : List Object) :
    (∀ e, parseOrdered o1 urlParse vm args = .error e ↔
      parseOrdered o2 urlParse vm args = .error e) ∧
    (∀ e, parseOrdered o1 urlParse vm args = .error e ↔ parse urlParse vm args = .error e) ∧
    (∀ i1, parseOrdered o1 urlParse vm args = .ok i1 →
      (∃ i2, parseOrdered o2 urlParse vm args = .ok i2) ∧
      ∃ i0, parse urlParse vm args = .ok i0 ∧ i1.Class = i0.Class ∧
        ∀ k, ivar i1 k = ivar i0 k) ∧
    (∀ i1 i2, parseOrdered o1 urlParse vm args = .ok i1 →
      parseOrdered o2 urlParse vm args = .ok i2 →
      i1.Class = i2.Class ∧ (∀ k, ivar i1 k = ivar i2 k) ∧
      ∃ uri rest u attrs, args = .StringObject uri :: rest ∧ urlParse uri = .ok u ∧
        uriAttrs u = .ok attrs ∧
        (o1 attrs).keys.Nodup ∧ (o2 attrs).keys.Nodup ∧
        (∀ k, k ∈ (o1 attrs).keys ↔ k ∈ attrs.keys) ∧
        (∀ k, k ∈ (o2 attrs).keys ↔ k ∈ attrs.keys) ∧
        (∀ k, ivar i1 k = attrs.get k ∧ ivar i2 k = attrs.get k) ∧
        (∀ k, k ∉ attrs.keys → ivar i1 k = none ∧ ivar i2 k = none)) := by
  rw [parse_eq_parseOrdered]
  rcases parseOrdered_cases urlParse vm args with
    ⟨e0, he⟩ | ⟨c, uri, rest, u, attrs, hargs, hp, hu, hok⟩
  · refine ⟨fun e => ?_, fun e => ?_, fun i1 hi1 => ?_, fun i1 i2 hi1 _ => ?_⟩
    · rw [he o1, he o2]
    · rw [he o1, he id]
    · rw [he o1] at hi1
      cases hi1
    · rw [he o1] at hi1
      cases hi1
  · have hnd := uriAttrs_nodup u attrs hu
    have p0 := ivar_assignAll_perm c attrs (id attrs) (List.Perm.refl attrs) hnd
    have p1 := ivar_assignAll_perm c attrs (o1 attrs) (h1 attrs) hnd
    have p2 := ivar_assignAll_perm c attrs (o2 attrs) (h2 attrs) hnd
    have hk1 : (GoMap.keys (o1 attrs)).Perm (GoMap.keys attrs) :=
      List.Perm.map Prod.fst (h1 attrs)
    have hk2 : (GoMap.keys (o2 attrs)).Perm (GoMap.keys attrs) :=
      List.Perm.map Prod.fst (h2 attrs)
    refine ⟨fun e => ?_, fun e => ?_, fun i1 hi1 => ⟨⟨_, hok o2⟩, _, hok id, ?_, ?_⟩,
      fun i1 i2 hi1 hi2 => ?_⟩
    · rw [hok o1, hok o2]
      constructor <;> intro h <;> cases h
    · rw [hok o1, hok id]
      constructor <;> intro h <;> cases h
    · rw [hok o1] at hi1
      cases hi1
      rw [assignAll_Class, assignAll_Class]
    · rw [hok o1] at hi1
      cases hi1
      intro k
      rw [(p1 k).2, (p0 k).2]
    · rw [hok o1] at hi1
      rw [hok o2] at hi2
      cases hi1
      cases hi2
      refine ⟨by rw [assignAll_Class, assignAll_Class], fun k => ?_, uri, rest, u, attrs,
        hargs, hp, hu, (p1 "").1, (p2 "").1, fun k => hk1.mem_iff, fun k => hk2.mem_iff,
        fun k => ⟨(p1 k).2, (p2 k).2⟩, fun k hk => ?_⟩
      · rw [(p1 k).2, (p2 k).2]
      · rw [(p1 k).2, (p2 k).2, GoMap.get_eq_none_of_not_mem_keys attrs k hk]
        exact ⟨rfl, rfl⟩

theorem parseOrdered_order_irrelevant_witness :
    (∀ m : GoMap Object, (id m).Perm m) ∧ (∀ m : GoMap Object, (List.reverse m).Perm m) ∧
    sampleParse "http://user:@example.com" =
      .ok (mkURL "http" "example.com" "" "" (some ⟨"user", "", true⟩)) ∧
    parse sampleParse (initializeURIClass emptyVM) [.StringObject "http://user:@example.com"] =
      .ok exampleUser ∧
    parseOrdered id sampleParse (initializeURIClass emptyVM)
      [.StringObject "http://user:@example.com"] = .ok exampleUser ∧
    parseOrdered List.reverse sampleParse (initializeURIClass emptyVM)
      [.StringObject "http://user:@example.com"] = .ok exampleUserReversed ∧
    exampleUser.Class = exampleUserReversed.Class ∧
    (∀ k, ivar exampleUser k = ivar exampleUserReversed k) ∧
    ivar exampleUserReversed "@user" = some (.StringObject "user") ∧
    ivar exampleUserReversed "@password" = some (.StringObject "") ∧
    ivar exampleUserReversed "@port" = some (.IntegerObject 80) :=
  have h := (parseOrdered_order_irrelevant id List.reverse (fun m => List.Perm.refl m)
    (fun m => List.reverse_perm m) sampleParse (initializeURIClass emptyVM)
    [.StringObject "http://user:@example.com"]).2.2.2 exampleUser exampleUserReversed
    (by decide) (by decide)
  ⟨fun m => List.Perm.refl m, fun m => List.reverse_perm m, by decide, by decide, by decide,
    by decide, h.1, h.2.1, by decide, by decide, by decide⟩

/-! ## The stored host and the parsed host -/

/-- C13: the code at the failing input. For "http://example.com:8080/a/b?x=1"
the scheme attribute is the parsed scheme "http", but the host attribute is
"example.com:8080", which is not the parsed host "example.com": line 67
stores `u.Host` with its port suffix. Scheme and host are string values
here, neither NULL nor unset. -/
theorem parse_scheme_host_with_port :
    sampleParse "http://example.com:8080/a/b?x=1" =
      .ok (mkURL "http" "example.com:8080" "/a/b" "x=1" none) ∧
    parse sampleParse (initializeURIClass emptyVM)
        [.StringObject "http://example.com:8080/a/b?x=1"] = .ok exampleHTTP8080 ∧
    (mkURL "http" "example.com:8080" "/a/b" "x=1" none).Scheme = "http" ∧
    ivar exampleHTTP8080 "@scheme" = some (.StringObject "http") ∧
    (mkURL "http" "example.com:8080" "/a/b" "x=1" none).Hostname = "example.com" ∧
    ivar exampleHTTP8080 "@host" = some (.StringObject "example.com:8080") ∧
    ivar exampleHTTP8080 "@host" ≠
      some (.StringObject (mkURL "http" "example.com:8080" "/a/b" "x=1" none).Hostname) := by
  decide

/-! ## The entries of the attribute map -/

theorem portAttr_keys_eq (u : URL) (a a' : GoMap Object) (hn : "@port" ∉ a.keys)
    (h : portAttr u a = .ok a') :
    a'.keys = a.keys ++
      (if u.Port ≠ "" ∨ u.Scheme = "http" ∨ u.Scheme = "https" then ["@port"] else []) := by
  have hset : ∀ v, (a.set "@port" v).keys = a.keys ++ ["@port"] := by
    intro v
    rw [GoMap.keys_set, if_neg hn]
  unfold portAttr at h
  split at h
  · rename_i hl
    have he : u.Port = "" := (length_eq_zero_iff _).mp hl
    split at h
    · rename_i hs
      cases h
      rw [hset, if_pos (Or.inr (Or.inl hs))]
    · split at h
      · rename_i hs
        cases h
        rw [hset, if_pos (Or.inr (Or.inr hs))]
      · rename_i hs1 hs2
        cases h
        rw [if_neg (by simp [he, hs1, hs2])]
        simp
  · rename_i hl
    have he : u.Port ≠ "" := fun e => hl ((length_eq_zero_iff _).mpr e)
    split at h
    · simp [returnError] at h
    · cases h
      rw [hset, if_pos (Or.inl he)]

/-- The keys of the map `parse` builds, as a list. -/
theorem uriAttrs_keys_eq (u : URL) (attrs : GoMap Object) (h : uriAttrs u = .ok attrs) :
    attrs.keys = ["@user", "@password", "@query", "@path", "@scheme", "@host"] ++
      (if u.Port ≠ "" ∨ u.Scheme = "http" ∨ u.Scheme = "https" then ["@port"] else []) := by
  unfold uriAttrs at h
  split at h
  · cases h
  · rename_i a ha
    cases h
    have hk := portAttr_keys_eq u _ a (by rw [baseAttrs_keys]; decide) ha
    rw [baseAttrs_keys] at hk
    have hb : ∀ k, k ∈ ["@user", "@password", "@query", "@path", "@scheme", "@host"] →
        k ∈ a.keys := by
      intro k hk'
      rw [hk]
      exact List.mem_append_left _ hk'
    have h1 := pathAttr_keys u a (hb _ (by decide))
    have h2 := queryAttr_keys u (pathAttr u a) (by rw [h1]; exact hb _ (by decide))
    have h3 := userAttrs_keys u (queryAttr u (pathAttr u a))
      (by rw [h2, h1]; exact hb _ (by decide)) (by rw [h2, h1]; exact hb _ (by decide))
    rw [h3, h2, h1, hk]

theorem userAttrs_get_password (u : URL) (a : GoMap Object)
    (h0 : a.get "@password" = some .NULL) :
    (userAttrs u a).get "@password" = some .NULL ∨
      ∃ s, (userAttrs u a).get "@password" = some (.StringObject s) := by
  unfold userAttrs
  split
  · exact Or.inl h0
  · rename_i ui _
    split <;> split
    · exact Or.inr ⟨_, GoMap.get_set_same _ _ _⟩
    · exact Or.inl (by rw [GoMap.get_set_other _ _ _ _ (by decide), h0])
    · exact Or.inr ⟨_, GoMap.get_set_same _ _ _⟩
    · exact Or.inl h0

/-- What the six keys of lines 56 to 67 hold in the map `parse` builds: user,
password and query a string or NULL, path, scheme and host a string. -/
theorem uriAttrs_get_six (u : URL) (attrs : GoMap Object) (h : uriAttrs u = .ok attrs) :
    (attrs.get "@user" = some .NULL ∨ ∃ s, attrs.get "@user" = some (.StringObject s)) ∧
    (attrs.get "@password" = some .NULL ∨
      ∃ s, attrs.get "@password" = some (.StringObject s)) ∧
    (attrs.get "@query" = some .NULL ∨ ∃ s, attrs.get "@query" = some (.StringObject s)) ∧
    (∃ s, attrs.get "@path" = some (.StringObject s)) ∧
    (∃ s, attrs.get "@scheme" = some (.StringObject s)) ∧
    (∃ s, attrs.get "@host" = some (.StringObject s)) := by
  unfold uriAttrs at h
  split at h
  · cases h
  · rename_i a ha
    cases h
    have hb := baseAttrs_get u
    have hbase : ∀ k, "@port" ≠ k → a.get k = (baseAttrs u).get k :=
      fun k hk => portAttr_get_other u _ a k hk ha
    refine ⟨?_, ?_, ?_, ?_, ?_, ?_⟩
    · have := userAttrs_get_user u (queryAttr u (pathAttr u a)) (by
        rw [queryAttr_get_other _ _ _ (by decide), pathAttr_get_other _ _ _ (by decide),
          hbase _ (by decide)]
        exact hb.1)
      rcases this with e | ⟨s, _, e⟩
      · exact Or.inl e
      · exact Or.inr ⟨s, e⟩
    · exact userAttrs_get_password u _ (by
        rw [queryAttr_get_other _ _ _ (by decide), pathAttr_get_other _ _ _ (by decide),
          hbase _ (by decide)]
        exact hb.2.1)
    · rw [userAttrs_get_other _ _ _ (by decide) (by decide)]
      have := queryAttr_get_query u (pathAttr u a) (by
        rw [pathAttr_get_other _ _ _ (by decide), hbase _ (by decide)]
        exact hb.2.2.1)
      rcases this with e | ⟨s, _, e⟩
      · exact Or.inl e
      · exact Or.inr ⟨s, e⟩
    · rw [userAttrs_get_other _ _ _ (by decide) (by decide),
        queryAttr_get_other _ _ _ (by decide)]
      obtain ⟨s, _, e⟩ := pathAttr_get_path u a (by
        rw [hbase _ (by decide)]
        exact hb.2.2.2.1)
      exact ⟨s, e⟩
    · rw [userAttrs_get_other _ _ _ (by decide) (by decide),
        queryAttr_get_other _ _ _ (by decide), pathAttr_get_other _ _ _ (by decide),
        hbase _ (by decide)]
      exact ⟨_, hb.2.2.2.2.1⟩
    · rw [userAttrs_get_other _ _ _ (by decide) (by decide),
        queryAttr_get_other _ _ _ (by decide), pathAttr_get_other _ _ _ (by decide),
        hbase _ (by decide)]
      exact ⟨_, hb.2.2.2.2.2.1⟩

/-- C8 (amended): on every successful parse the attribute map that seeds the
instance holds the six keys user, password, query, path, scheme and host,
each with a string or the absent-marker (NULL); it holds the port key, with
an integer, exactly when an explicit port is given or the scheme is "http"
or "https", and has seven entries then; otherwise the map has no port key
and six entries, and the instance no port instance variable. -/
theorem parse_attr_keys (urlParse : String → Except String URL) (vm : VM) (uri : String)
    (u : URL) (i : RObject) (hp : urlParse uri = .ok u)
    (h : parse urlParse (initializeURIClass vm) [.StringObject uri] = .ok i) :
    ∃ attrs, uriAttrs u = .ok attrs ∧ (∀ k, ivar i k = attrs.get k) ∧
      attrs.keys.Nodup ∧
      (∀ k, k ∈ attrs.keys ↔
        (k ∈ ["@user", "@password", "@query", "@path", "@scheme", "@host"] ∨
          (k = "@port" ∧ (u.Port ≠ "" ∨ u.Scheme = "http" ∨ u.Scheme = "https")))) ∧
      (∀ k, k ∈ ["@user", "@password", "@query", "@path", "@scheme", "@host"] →
        ∃ v, attrs.get k = some v ∧ (v = .NULL ∨ ∃ s, v = .StringObject s)) ∧
      ((u.Port ≠ "" ∨ u.Scheme = "http" ∨ u.Scheme = "https") →
        (∃ n, attrs.get "@port" = some (.IntegerObject n)) ∧ attrs.length = 7) ∧
      (¬ (u.Port ≠ "" ∨ u.Scheme = "http" ∨ u.Scheme = "https") →
        "@port" ∉ attrs.keys ∧ attrs.length = 6 ∧ ivar i "@port" = none) := by
  obtain ⟨a, ha, _, hi⟩ := parse_ok_inv urlParse vm uri u i hp h
  have hu : uriAttrs u = .ok (userAttrs u (queryAttr u (pathAttr u a))) := by
    simp only [uriAttrs, ha]
  have hport := uriAttrs_get_port u _ hu
  have hkeys := uriAttrs_keys_eq u _ hu
  have hsix := uriAttrs_get_six u _ hu
  have hlen : ∀ m : GoMap Object, m.length = m.keys.length := by
    intro m
    simp [GoMap.keys]
  refine ⟨_, hu, hi, uriAttrs_nodup u _ hu, fun k => uriAttrs_mem_keys u _ k hu,
    fun k hk => ?_, fun hc => ⟨hport.1 hc, ?_⟩, fun hc => ⟨?_, ?_, ?_⟩⟩
  · simp only [List.mem_cons, List.mem_singleton, List.not_mem_nil, or_false] at hk
    rcases hk with e | e | e | e | e | e <;> subst e
    · rcases hsix.1 with e | ⟨s, e⟩
      · exact ⟨_, e, Or.inl rfl⟩
      · exact ⟨_, e, Or.inr ⟨s, rfl⟩⟩
    · rcases hsix.2.1 with e | ⟨s, e⟩
      · exact ⟨_, e, Or.inl rfl⟩
      · exact ⟨_, e, Or.inr ⟨s, rfl⟩⟩
    · rcases hsix.2.2.1 with e | ⟨s, e⟩
      · exact ⟨_, e, Or.inl rfl⟩
      · exact ⟨_, e, Or.inr ⟨s, rfl⟩⟩
    · obtain ⟨s, e⟩ := hsix.2.2.2.1
      exact ⟨_, e, Or.inr ⟨s, rfl⟩⟩
    · obtain ⟨s, e⟩ := hsix.2.2.2.2.1
      exact ⟨_, e, Or.inr ⟨s, rfl⟩⟩
    · obtain ⟨s, e⟩ := hsix.2.2.2.2.2
      exact ⟨_, e, Or.inr ⟨s, rfl⟩⟩
  · rw [hlen, hkeys, if_pos hc]
    rfl
  · rw [uriAttrs_mem_keys u _ _ hu]
    simp only [hc, and_false, or_false]
    decide
  · rw [hlen, hkeys, if_neg hc]
    rfl
  · rw [hi]
    exact hport.2 hc

theorem parse_attr_keys_witness :
    sampleParse "http://user:@example.com" =
      .ok (mkURL "http" "example.com" "" "" (some ⟨"user", "", true⟩)) ∧
    parse sampleParse (initializeURIClass emptyVM) [.StringObject "http://user:@example.com"] =
      .ok exampleUser ∧
    uriAttrs (mkURL "http" "example.com" "" "" (some ⟨"user", "", true⟩)) =
      .ok exampleUser.InstanceVariables ∧
    exampleUser.InstanceVariables.length = 7 ∧
    ∃ attrs, uriAttrs (mkURL "http" "example.com" "" "" (some ⟨"user", "", true⟩)) =
        .ok attrs ∧
      (∀ k, ivar exampleUser k = attrs.get k) ∧ attrs.keys.Nodup ∧
      (∀ k, k ∈ attrs.keys ↔
        (k ∈ ["@user", "@password", "@query", "@path", "@scheme", "@host"] ∨
          (k = "@port" ∧
            ((mkURL "http" "example.com" "" "" (some ⟨"user", "", true⟩)).Port ≠ "" ∨
              (mkURL "http" "example.com" "" "" (some ⟨"user", "", true⟩)).Scheme = "http" ∨
              (mkURL "http" "example.com" "" "" (some ⟨"user", "", true⟩)).Scheme =
                "https")))) ∧
      (∀ k, k ∈ ["@user", "@password", "@query", "@path", "@scheme", "@host"] →
        ∃ v, attrs.get k = some v ∧ (v = .NULL ∨ ∃ s, v = .StringObject s)) ∧
      (((mkURL "http" "example.com" "" "" (some ⟨"user", "", true⟩)).Port ≠ "" ∨
          (mkURL "http" "example.com" "" "" (some ⟨"user", "", true⟩)).Scheme = "http" ∨
          (mkURL "http" "example.com" "" "" (some ⟨"user", "", true⟩)).Scheme = "https") →
        (∃ n, attrs.get "@port" = some (.IntegerObject n)) ∧ attrs.length = 7) ∧
      (¬ ((mkURL "http" "example.com" "" "" (some ⟨"user", "", true⟩)).Port ≠ "" ∨
          (mkURL "http" "example.com" "" "" (some ⟨"user", "", true⟩)).Scheme = "http" ∨
          (mkURL "http" "example.com" "" "" (some ⟨"user", "", true⟩)).Scheme = "https") →
        "@port" ∉ attrs.keys ∧ attrs.length = 6 ∧ ivar exampleUser "@port" = none) :=
  ⟨by decide, by decide, by decide, by decide,
    parse_attr_keys sampleParse emptyVM "http://user:@example.com"
      (mkURL "http" "example.com" "" "" (some ⟨"user", "", true⟩)) exampleUser
      (by decide) (by decide)⟩

/-! ## Ports that the conversion rejects, and port texts it never sees -/

theorem lastIndexByte_drop (l : List Char) (c : Char) (i : Nat)
    (h : lastIndexByte l c = some i) : l.drop i = c :: l.drop (i + 1) := by
  induction l generalizing i with
  | nil => simp [lastIndexByte] at h
  | cons x xs ih =>
    unfold lastIndexByte at h
    split at h
    · rename_i j hj
      cases h
      simpa using ih j hj
    · split at h
      · rename_i hx
        cases h
        simp [hx]
      · cases h

/-- A text after the last colon that is neither empty nor numeric is not a
port for `Port`. -/
theorem Port_empty_of_not_numeric (u : URL) (hne : u.afterLastColon ≠ "")
    (hnum : ¬ isNumeric u.afterLastColon) : u.Port = "" := by
  unfold URL.afterLastColon at hne hnum
  unfold URL.Port splitHostPort
  simp only
  split at hne
  · rename_i colon hcolon
    rw [hcolon] at hnum
    simp only at hnum
    have hd := lastIndexByte_drop _ _ _ hcolon
    have hv : validOptionalPort (List.drop colon u.Host.data) = false := by
      rw [hd]
      simp only [validOptionalPort, ne_eq, not_true_eq_false, if_false]
      by_contra hall
      rw [Bool.not_eq_false] at hall
      apply hnum
      refine ⟨fun e => hne (by simp only at e; rw [e]), fun c hc => ?_⟩
      have := (List.all_eq_true.mp hall) c hc
      simpa [isDecimalDigit] using this
    simp only [hv]
    rfl
  · exact absurd rfl hne

theorem portAttr_empty_ok (u : URL) (a : GoMap Object) (h : u.Port = "") :
    ∃ a', portAttr u a = .ok a' := by
  have hl : u.Port.length = 0 := (length_eq_zero_iff _).mpr h
  simp only [portAttr, hl, if_true]
  split
  · exact ⟨_, rfl⟩
  · split
    · exact ⟨_, rfl⟩
    · exact ⟨_, rfl⟩

/-- C5 (as stated, refuted): the parsed host "example.com:abc" carries the
explicit port text "abc", which is not numeric and which `strconv.ParseInt`
rejects; yet `parse` raises no error and returns an instance, with the port
80 of the scheme, because `u.Port()` is empty for it. -/
theorem parse_port_error_counterexample :
    lenientParse "http://example.com:abc" =
      .ok (mkURL "http" "example.com:abc" "" "" none) ∧
    (mkURL "http" "example.com:abc" "" "" none).afterLastColon = "abc" ∧
    ¬ isNumeric "abc" ∧
    ParseInt "abc" 0 64 = .error ⟨"ParseInt", "abc", .ErrSyntax⟩ ∧
    (mkURL "http" "example.com:abc" "" "" none).Port = "" ∧
    parse lenientParse (initializeURIClass emptyVM) [.StringObject "http://example.com:abc"] =
      .ok exampleHTTPabc ∧
    ivar exampleHTTPabc "@port" = some (.IntegerObject 80) := by
  decide

/-- C5 (amended): when the port that `u.Port()` returns for the parsed URL
is not empty and `strconv.ParseInt` does not accept it, `parse` raises the
error of `ParseInt` and returns no instance, hence none with a placeholder
port either; and when the text after the last colon of the parsed host is
neither empty nor numeric, `u.Port()` is empty, so `parse` raises no error
and returns an instance as for a URL without an explicit port. -/
theorem parse_port_error (urlParse : String → Except String URL) (vm : VM) (uri : String)
    (u : URL) (hp : urlParse uri = .ok u) :
    (∀ e, u.Port ≠ "" → ParseInt u.Port 0 64 = .error e →
      parse urlParse (initializeURIClass vm) [.StringObject uri] = .error (.raised e.Error) ∧
      ∀ i, parse urlParse (initializeURIClass vm) [.StringObject uri] ≠ .ok i) ∧
    (u.afterLastColon ≠ "" → ¬ isNumeric u.afterLastColon →
      u.Port = "" ∧ ∃ i, parse urlParse (initializeURIClass vm) [.StringObject uri] = .ok i) := by
  constructor
  · intro e hport herr
    have h : parse urlParse (initializeURIClass vm) [.StringObject uri] =
        .error (.raised e.Error) := by
      rw [parse_initialized, hp]
      simp only [uriAttrs, portAttr_explicit_error u _ e hport herr]
    refine ⟨h, fun i hi => ?_⟩
    rw [h] at hi
    cases hi
  · intro hne hnum
    have hport := Port_empty_of_not_numeric u hne hnum
    obtain ⟨a, ha⟩ := portAttr_empty_ok u (baseAttrs u) hport
    exact ⟨hport, parse_ok_of urlParse vm uri u a hp ha⟩

theorem parse_port_error_witness :
    (sampleParse "http://example.com:99999999999999999999/" =
        .ok (mkURL "http" "example.com:99999999999999999999" "/" "" none) ∧
      (mkURL "http" "example.com:99999999999999999999" "/" "" none).Port ≠ "" ∧
      ParseInt (mkURL "http" "example.com:99999999999999999999" "/" "" none).Port 0 64 =
        .error ⟨"ParseInt", "99999999999999999999", .ErrRange⟩ ∧
      parse sampleParse (initializeURIClass emptyVM)
          [.StringObject "http://example.com:99999999999999999999/"] =
        .error (.raised (NumError.Error ⟨"ParseInt", "99999999999999999999", .ErrRange⟩)) ∧
      ∀ i, parse sampleParse (initializeURIClass emptyVM)
        [.StringObject "http://example.com:99999999999999999999/"] ≠ .ok i) ∧
    (lenientParse "http://example.com:abc" =
        .ok (mkURL "http" "example.com:abc" "" "" none) ∧
      (mkURL "http" "example.com:abc" "" "" none).afterLastColon ≠ "" ∧
      ¬ isNumeric (mkURL "http" "example.com:abc" "" "" none).afterLastColon ∧
      (mkURL "http" "example.com:abc" "" "" none).Port = "" ∧
      ∃ i, parse lenientParse (initializeURIClass emptyVM)
        [.StringObject "http://example.com:abc"] = .ok i) :=
  ⟨⟨by decide, by decide, by decide,
      (parse_port_error sampleParse emptyVM "http://example.com:99999999999999999999/"
        (mkURL "http" "example.com:99999999999999999999" "/" "" none) (by decide)).1
        ⟨"ParseInt", "99999999999999999999", .ErrRange⟩ (by decide) (by decide)⟩,
    ⟨by decide, by decide, by decide,
      (parse_port_error lenientParse emptyVM "http://example.com:abc"
        (mkURL "http" "example.com:abc" "" "" none) (by decide)).2 (by decide) (by decide)⟩⟩

end Goby

